import Mathlib

/-!
A verification development for the `depkit` dependency manager.

The Python sources (`depkit/parser.py`, `depkit/utils.py`,
`depkit/depmanager.py`) are embedded shallowly: pure text processing becomes
functions over `String` and `List String` (a file's text is modelled as its
list of newline-free lines), stateful code becomes explicit state passing,
exceptions become `Except` / error-summand results, and every interaction
with the outside world (filesystem, package registry, installer subprocess)
is a parameter of the embedded function, supplied as an oracle record.

Two pieces of the package are not present in the sources available here
(`depkit/exceptions.py`, and `parse_script_metadata` / `check_python_version`
in `depkit/parser.py`); those are modelled from the specification and are
marked as such in their doc comments.
-/

/-- Exceptions of the embedding.  `depError` stands for
`depkit.exceptions.DependencyError`; `scriptError` for
`depkit.exceptions.ScriptError`; `otherError` for every exception that is
neither (e.g. `OSError` escaping from `Path.is_dir`). -/
inductive PyErr where
  | depError (msg : String)
  | scriptError (msg : String)
  | otherError (msg : String)
deriving Repr, DecidableEq

/-- Modelled from the spec: `depkit/exceptions.py` is missing from the
sources.  Per §4.5 a per-script metadata failure is "logged and skipped"
while raised `DependencyError`s abort, and `_setup_script_modules` skips
exactly the exceptions for which `isinstance(exc, DependencyError)` is
false; so `ScriptError` is modelled as not being a `DependencyError`. -/
def PyErr.isDependencyError : PyErr → Bool
  | .depError _ => true
  | .scriptError _ => false
  | .otherError _ => false

/-- The message carried by an exception. -/
def PyErr.msg : PyErr → String
  | .depError m => m
  | .scriptError m => m
  | .otherError m => m

/-- The single-quote character, used inside error messages. -/
def squote : String := (Char.ofNat 39).toString

/-- Boolean test: `small` is a leading segment of `big` (as char lists). -/
def leadsCL : List Char → List Char → Bool
  | [], _ => true
  | _ :: _, [] => false
  | a :: as, b :: bs => a = b && leadsCL as bs

/-- Boolean test: `needle` occurs contiguously inside `hay` (as char lists). -/
def withinCL (needle : List Char) : List Char → Bool
  | [] => leadsCL needle []
  | hay@(_ :: rest) => leadsCL needle hay || withinCL needle rest

/-- Predicate `containsStr hay needle` holds when `needle` is a contiguous substring
of `hay`; used to state what an error message names. -/
def containsStr (hay needle : String) : Bool := withinCL needle.data hay.data

/-- The whitespace characters stripped by Python's `str.strip()`
(space, tab, newline, carriage return, vertical tab, form feed). -/
def isPyWS (c : Char) : Bool :=
  c = ' ' || c = '\t' || c = '\n' || c = '\r' || c = Char.ofNat 11 || c = Char.ofNat 12

/-- Python `str.strip()`: remove leading and trailing whitespace. -/
def strTrim (s : String) : String :=
  String.mk (((s.data.dropWhile isPyWS).reverse.dropWhile isPyWS).reverse)

/-- Python `str.startswith("#")`. -/
def startsHash (s : String) : Bool :=
  match s.data with
  | '#' :: _ => true
  | _ => false

/-- The chars before the first occurrence of `sep` (`str.split(sep)[0]`). -/
def beforeFirst (sep : List Char) : List Char → List Char
  | [] => []
  | c :: rest =>
    if leadsCL sep (c :: rest) = true then [] else c :: beforeFirst sep rest

/-- Python `s.split(sep)[0]` for a non-empty separator. -/
def strBefore (s sep : String) : String := String.mk (beforeFirst sep.data s.data)

/-! ## Metadata parser (`depkit/parser.py`)

The PEP 723 block finder embeds `SCRIPT_REGEX`
(`(?m)^# /// (?P<type>[a-zA-Z0-9-]+)$\s(?P<content>(^#(| .*)$\s)+)^# ///$`)
together with `re.finditer`'s left-to-right, non-overlapping, greedy
backtracking semantics, restated over the line list of the text:

* a match starts at a line `# /// <type>` with `<type>` a non-empty run of
  ASCII alphanumerics and dashes;
* the content group greedily consumes the following maximal run of comment
  lines (a line is a comment line when it is exactly `#` or starts with
  `# `), then backtracks minimally, so the closing `# ///` is the *last*
  line equal to `# ///` inside that run, and the content (which must be
  non-empty) is everything before it;
* scanning resumes after the closing line of a successful match, and at the
  next line after a failed start.
-/

/-- Characters allowed in the block-type group `[a-zA-Z0-9-]`. -/
def isTypeChar (c : Char) : Bool :=
  (('a' ≤ c && c ≤ 'z') || ('A' ≤ c && c ≤ 'Z') || ('0' ≤ c && c ≤ '9') || c = '-')

/-- A line matching the content-group alternative `^#(| .*)$`: exactly `#`,
or `# ` followed by anything. -/
def isContentLine (l : String) : Bool :=
  match l.data with
  | ['#'] => true
  | '#' :: ' ' :: _ => true
  | _ => false

/-- The block-type named by a start-marker line `# /// <type>`, if any. -/
def startType? (l : String) : Option String :=
  match l.data with
  | '#' :: ' ' :: '/' :: '/' :: '/' :: ' ' :: rest =>
    if rest ≠ [] ∧ rest.all isTypeChar then some (String.mk rest) else none
  | _ => none

/-- The end-marker line of a block. -/
def endMarker : String := String.mk ['#', ' ', '/', '/', '/']

/-- Index of the closing `# ///` chosen by greedy backtracking: the largest
position `p ≥ 1` inside the comment-line run whose line is `# ///`
(content must be non-empty, hence `p ≥ 1`). -/
def endIdx? (run : List String) : Option Nat :=
  ((List.range run.length).filter
    (fun p => decide (1 ≤ p) && decide (run.getD p "" = endMarker))).getLast?

/-- Attempt a match whose start marker was the line just before `ls`:
returns the content lines and the lines remaining after the end marker. -/
def tryMatch (ls : List String) : Option (List String × List String) :=
  let run := ls.takeWhile isContentLine
  match endIdx? run with
  | none => none
  | some p => some (run.take p, ls.drop (p + 1))

/-- All `SCRIPT_REGEX` matches of the text, in order, as
`(type, content-lines)` pairs (fuelled recursion; the fuel is the number of
lines, which bounds the scan). -/
def findBlocksAux : Nat → List String → List (String × List String)
  | 0, _ => []
  | _, [] => []
  | fuel + 1, l :: rest =>
    match startType? l with
    | none => findBlocksAux fuel rest
    | some t =>
      match tryMatch rest with
      | none => findBlocksAux fuel rest
      | some (content, rem) => (t, content) :: findBlocksAux fuel rem

/-- All `SCRIPT_REGEX` matches of a text given as its list of lines. -/
def findBlocks (lines : List String) : List (String × List String) :=
  findBlocksAux lines.length lines

/-- Embeds `extract_toml`: strip `line[2:] if line.startswith("# ") else line[1:]`
from one content line. -/
def stripHashPrefix (l : String) : String :=
  match l.data with
  | '#' :: ' ' :: rest => String.mk rest
  | _ :: rest => String.mk rest
  | [] => ""

/-! ## Restricted configuration-data (TOML) model

`tomllib` is an external standard-library collaborator.  Modelled from the
spec (§4.1/§6): the block body is a restricted configuration-data document
whose recognized keys are `dependencies` (list of strings) and
`requires-python` (string).  The model parses, line by line, bare
`key = value` assignments whose value is a double-quoted string or a
single-line array of double-quoted strings, skips blank and `#`-comment
lines, and rejects everything else (as the real parser rejects invalid
syntax); duplicate keys are rejected as well. -/

/-- A configuration value: a string or a list of strings. -/
inductive TomlVal where
  | str (s : String)
  | list (l : List String)
deriving Repr, DecidableEq

/-- Python truthiness of a configuration value (`if deps := ...` /
`if python_req := ...` test truthiness, so empty values are skipped). -/
def TomlVal.truthy : TomlVal → Bool
  | .str s => s ≠ ""
  | .list l => l ≠ []

/-- Characters allowed in a bare key. -/
def isKeyChar (c : Char) : Bool :=
  (('a' ≤ c && c ≤ 'z') || ('A' ≤ c && c ≤ 'Z') || ('0' ≤ c && c ≤ '9')
    || c = '-' || c = '_')

/-- Parse a double-quoted string literal (no escapes recognized) spanning the
whole char list. -/
def parseQuoted : List Char → Option String
  | '"' :: rest =>
    let body := rest.takeWhile (fun c => c ≠ '"' && c ≠ '\\')
    match rest.drop body.length with
    | ['"'] => some (String.mk body)
    | _ => none
  | _ => none

/-- Parse a comma-separated sequence of double-quoted strings (the inside of
a single-line array). -/
def parseStrItems (fuel : Nat) (cs : List Char) : Option (List String) :=
  match fuel with
  | 0 => none
  | fuel + 1 =>
    let cs := cs.dropWhile (fun c => c = ' ')
    match cs with
    | [] => some []
    | '"' :: rest =>
      let body := rest.takeWhile (fun c => c ≠ '"' && c ≠ '\\')
      match rest.drop body.length with
      | '"' :: after =>
        let after := after.dropWhile (fun c => c = ' ')
        match after with
        | [] => some [String.mk body]
        | ',' :: more =>
          match parseStrItems fuel more with
          | some items => some (String.mk body :: items)
          | none => none
        | _ => none
      | _ => none
    | _ => none

/-- Parse one value: a quoted string or a single-line array of quoted
strings. -/
def parseTomlVal (cs : List Char) : Option TomlVal :=
  match cs with
  | '[' :: rest =>
    let inner := rest.takeWhile (fun c => c ≠ ']')
    match rest.drop inner.length with
    | [']'] =>
      match parseStrItems (inner.length + 1) inner with
      | some items => some (.list items)
      | none => none
    | _ => none
  | _ =>
    match parseQuoted cs with
    | some s => some (.str s)
    | none => none

/-- Parse one non-blank, non-comment line as `key = value`. -/
def parseTomlLine (l : String) : Option (String × TomlVal) :=
  let cs := l.data.dropWhile (fun c => c = ' ')
  let key := cs.takeWhile isKeyChar
  if key = [] then none
  else
    let afterKey := (cs.drop key.length).dropWhile (fun c => c = ' ')
    match afterKey with
    | '=' :: rest =>
      let rest := rest.dropWhile (fun c => c = ' ')
      match parseTomlVal (rest.reverse.dropWhile (fun c => c = ' ')).reverse with
      | some v => some (String.mk key, v)
      | none => none
    | _ => none

/-- Modelled from the spec: the external `tomllib.loads`, restricted to the
configuration subset of §4.1/§6.  Returns the key/value table or the first
offending line. -/
def tomlParse : List String → Except String (List (String × TomlVal))
  | [] => .ok []
  | l :: rest =>
    if strTrim l = "" ∨ startsHash (strTrim l) = true then tomlParse rest
    else
      match parseTomlLine l with
      | none => .error ("invalid statement: " ++ strTrim l)
      | some (k, v) =>
        match tomlParse rest with
        | .error e => .error e
        | .ok tbl => if tbl.any (fun kv => kv.1 = k)
            then .error ("duplicate key: " ++ k)
            else .ok ((k, v) :: tbl)

/-- Table lookup (`metadata.get(key)`). -/
def tomlGet (tbl : List (String × TomlVal)) (k : String) : Option TomlVal :=
  match tbl.find? (fun kv => kv.1 = k) with
  | some kv => some kv.2
  | none => none

/-- Embeds `parse_informal_deps` (`parser.py`): the legacy informal format.  The
loop state `in_deps` opens at a line whose stripped form is exactly
`# Dependencies:`, yields the stripped-of-`#` form of subsequent comment
lines, closes (without stopping the scan) at blank lines, and the scan ends
at the first line that is neither blank nor a comment. -/
def informalGo : List String → Bool → List String
  | [], _ => []
  | l :: rest, in_deps =>
    let stripped := strTrim l
    if stripped = "" ∨ startsHash stripped = true then
      if stripped = "# Dependencies:" then informalGo rest true
      else if in_deps ∧ startsHash stripped = true then
        let req := strTrim (String.mk (stripped.data.dropWhile (fun c => c = '#')))
        if req ≠ "" then req :: informalGo rest in_deps
        else informalGo rest in_deps
      else informalGo rest false
    else []

/-- Embeds `parse_informal_deps` over the lines of a text. -/
def parse_informal_deps (lines : List String) : List String :=
  informalGo lines false

/-- Embeds `parse_pep723_deps` (`parser.py`): find `script`-typed metadata blocks;
more than one is an error; none falls back to the informal format; exactly
one has its comment prefixes stripped and is parsed as configuration data,
yielding the `dependencies` list.  Errors raised inside the `try` body
(non-list `dependencies`, non-string `requires-python`) are re-wrapped by
the generic handler with the `Error parsing script metadata:` prefix. -/
def parse_pep723_deps (lines : List String) : Except PyErr (List String) :=
  let ms := (findBlocks lines).filter (fun b => b.1 = "script")
  if ms.length > 1 then
    .error (.scriptError "Multiple script metadata blocks found")
  else
    match ms with
    | [] => .ok (parse_informal_deps lines)
    | (_, content) :: _ =>
      match tomlParse (content.map stripHashPrefix) with
      | .error e => .error (.scriptError ("Invalid TOML in script metadata: " ++ e))
      | .ok tbl =>
        let depsStep : Except PyErr (List String) :=
          match tomlGet tbl "dependencies" with
          | some v =>
            if v.truthy then
              match v with
              | .list l => .ok l
              | .str _ => .error (.scriptError
                  "Error parsing script metadata: dependencies must be a list")
            else .ok []
          | none => .ok []
        match depsStep with
        | .error e => .error e
        | .ok deps =>
          match tomlGet tbl "requires-python" with
          | some v =>
            if v.truthy then
              match v with
              | .str _ => .ok deps
              | .list _ => .error (.scriptError
                  "Error parsing script metadata: requires-python must be a string")
            else .ok deps
          | none => .ok deps

/-! ## Utilities (`depkit/utils.py`)

The environment's package-distribution registry, the installer subprocess
and the filesystem are oracles passed to the embedded functions. -/

/-- Outcome of `importlib.metadata.distribution(name)`: the distribution is
present, absent (`PackageNotFoundError`), or the lookup raised some other
error. -/
inductive LookupResult where
  | found
  | notFound
  | lookupError (msg : String)
deriving Repr, DecidableEq

/-- The bare package name of a requirement:
`req.split(">=")[0].split("==")[0].split("<")[0].strip()`. -/
def bareName (req : String) : String :=
  strTrim (strBefore (strBefore (strBefore req ">=") "==") "<")

/-- Embeds `check_requirements`: the requirements whose bare name is not found in
the registry (absence and lookup errors both classify as missing). -/
def check_requirements (lookup : String → LookupResult) :
    List String → List String
  | [] => []
  | req :: rest =>
    match lookup (bareName req) with
    | .found => check_requirements lookup rest
    | .notFound => req :: check_requirements lookup rest
    | .lookupError _ => req :: check_requirements lookup rest

/-- Outcome of `subprocess.run(cmd, check=True, capture_output=True)`. -/
inductive ExitResult where
  | ok (stdout : String)
  | nonzero (stderr : String)
  | invokeError (msg : String)
deriving Repr, DecidableEq

/-- The installer command line:
`<installer> install [--index-url <url>] <requirement>...`. -/
def buildInstallCmd (pip_command : List String) (pip_index_url : Option String)
    (reqs : List String) : List String :=
  pip_command ++ ["install"] ++
    (match pip_index_url with
     | some u => ["--index-url", u]
     | none => []) ++ reqs

/-- Embeds `install_requirements`: short-circuits on an empty list, otherwise runs
the built command once; a non-zero exit or any other invocation failure is a
`DependencyError`.  The second component records every command handed to the
installer subprocess. -/
def install_requirements (runner : List String → ExitResult)
    (reqs : List String) (pip_command : Option (List String))
    (pip_index_url : Option String) :
    Except PyErr (List String) × List (List String) :=
  let pc := pip_command.getD ["pip"]
  if reqs.isEmpty then (.ok [], [])
  else
    let cmd := buildInstallCmd pc pip_index_url reqs
    match runner cmd with
    | .ok _ => (.ok reqs, [cmd])
    | .nonzero stderr =>
      (.error (.depError
        ("Failed to install requirements: command returned non-zero exit status"
          ++ "\nOutput: " ++ stderr)), [cmd])
    | .invokeError m =>
      (.error (.depError ("Unexpected error installing requirements: " ++ m)),
        [cmd])

/-- Embeds `get_pip_command`: the `uv pip` form when `uv` is preferred or detected
and resolvable on the search path, else `python -m pip`. -/
def get_pip_command (whichUv : Option String) (pyExe : String)
    (prefer_uv is_uv : Bool) : List String :=
  if prefer_uv || is_uv then
    match whichUv with
    | some uvPath => [uvPath, "pip"]
    | none => [pyExe, "-m", "pip"]
  else [pyExe, "-m", "pip"]

/-- Outcome of resolving one extra path in `update_python_path`:
`Path(path).resolve()` plus the `exists()` probe, or a caught per-path
failure. -/
inductive PathOutcome where
  | failure (msg : String)
  | resolved (abs : String) (exs : Bool)
deriving Repr, DecidableEq

/-- Embeds `DependencyManager.update_python_path`: resolve each extra path, skip
failures and non-existent paths, append each resolved path to `sys.path`
when not already present. -/
def update_python_path (po : String → PathOutcome) :
    List String → List String → List String
  | [], sysPath => sysPath
  | p :: rest, sysPath =>
    match po p with
    | .failure _ => update_python_path po rest sysPath
    | .resolved abs exs =>
      if exs = false then update_python_path po rest sysPath
      else if abs ∈ sysPath then update_python_path po rest sysPath
      else update_python_path po rest (sysPath ++ [abs])

/-- Embeds `verify_paths`: the first failing path yields a `DependencyError`
(non-existent path, or existing path that is not a directory). -/
def verify_paths (exs isd : String → Bool) : List String → Option PyErr
  | [] => none
  | p :: rest =>
    if exs p = false then some (.depError ("Path does not exist: " ++ p))
    else if isd p = false then some (.depError ("Path is not a directory: " ++ p))
    else verify_paths exs isd rest

/-! ## The dependency manager (`depkit/depmanager.py`) -/

/-- Code-point lexicographic comparison of char lists, as Python compares
strings. -/
def charListLeB : List Char → List Char → Bool
  | [], _ => true
  | _ :: _, [] => false
  | a :: as, b :: bs =>
    if a.toNat < b.toNat then true
    else if b.toNat < a.toNat then false
    else charListLeB as bs

/-- Code-point lexicographic `≤` on strings. -/
def strLeB (a b : String) : Bool := charListLeB a.data b.data

/-- Python `sorted(set(l))`: the deduplicated list in ascending code-point
lexicographic order. -/
def sortedSet (l : List String) : List String :=
  List.insertionSort (fun a b => strLeB a b = true) l.dedup

/-- Python `pathlib.PurePath.stem` over a `/`-separated path string: the final
component with its last suffix removed (a suffix needs a dot after the
first character of the name). -/
def pathStem (p : String) : String :=
  let name := (p.data.reverse.takeWhile (fun c => c ≠ '/')).reverse
  match name.reverse.findIdx? (fun c => c = '.') with
  | none => String.mk name
  | some i =>
    if i = 0 ∨ name.length - 1 - i = 0 then String.mk name
    else String.mk (name.take (name.length - 1 - i))

/-- Result for one script of `parse_script_metadata`.  Modelled from the
spec (§3 ScriptMetadata, §4.1): an ordered sequence of requirement
specifiers and an optional interpreter-version constraint. -/
structure ScriptMeta where
  dependencies : List String
  python_version : Option String
deriving Repr, DecidableEq

/-- Outcome of `Path(script_path).read_text(...)`. -/
inductive ScriptRead where
  | notFound
  | failure (msg : String)
  | content (text : String)
deriving Repr, DecidableEq

/-- The oracle record: every interaction of the manager with the outside
world (filesystem, metadata registry, installer subprocess, interpreter
probes). -/
structure Env where
  /-- Oracle for `Path(script_path).read_text("utf-8", errors="ignore")`. -/
  readScript : String → ScriptRead
  /-- Modelled from the spec: `parse_script_metadata` is missing from the
  sources; per §4.1 it parses the inline block into a `ScriptMeta`, failing
  with a `ScriptError` message on malformed metadata. -/
  parseMeta : String → Except String ScriptMeta
  /-- Oracle telling whether `ast.parse(content)` succeeds (`validate_script`). -/
  syntaxOk : String → Bool
  /-- Modelled from the spec: `check_python_version` is missing from the
  sources; per §4.5 it decides whether the running interpreter satisfies
  the declared constraint, and an unmet constraint is a fatal
  `DependencyError` naming the script and the constraint. -/
  pyOk : String → Bool
  /-- Oracle for `Path(path).is_dir()` in `setup` (an `Except` since an escaping
  filesystem error there is not caught locally). -/
  isDir : String → Except String Bool
  /-- Oracle for `scan_directory_deps` (total: it swallows its own errors). -/
  scanDeps : String → List String
  /-- Oracle for `importlib.metadata.distribution` lookups. -/
  lookup : String → LookupResult
  /-- the installer subprocess. -/
  runner : List String → ExitResult
  /-- per-path resolution outcome in `update_python_path`. -/
  pathOutcome : String → PathOutcome
  /-- Oracle for `UPath(path).exists()` in `verify_paths`. -/
  upathExists : String → Bool
  /-- Oracle for `UPath(path).is_dir()` in `verify_paths`. -/
  upathIsDir : String → Bool
  /-- Oracle for `shutil.which("uv")`. -/
  whichUv : Option String
  /-- Value of `sys.executable`. -/
  pyExe : String

/-- The `DependencyManager` instance state (its constructor-set and mutated
fields). -/
structure DependencyManager where
  prefer_uv : Bool
  requirements : List String
  extra_paths : List String
  pip_index_url : Option String
  force_install : Bool
  is_uv : Bool
  scripts : List String
  scripts_dir : String
  module_map : List (String × String)
  installed : List String
deriving Repr, DecidableEq

/-- Process-and-disk state the manager mutates: `sys.path`, the staging
directory and its files, and the commands handed to the installer. -/
structure World where
  sysPath : List String
  stagingExists : Bool
  stagedFiles : List String
  installCalls : List (List String)
deriving Repr, DecidableEq

/-- The message of the isolation check in `__init__`. -/
def venvMsg : String :=
  "Not running in a virtual environment. Installing packages globally " ++
  "is not recommended. Use force_install=True to override."

/-- The collision message of `_setup_script_modules`. -/
def collisionMsg (base fromPath usedPath : String) : String :=
  "Duplicate module name " ++ squote ++ base ++ squote ++ " from " ++ fromPath
    ++ ". Already used by " ++ usedPath

/-- Embeds `DependencyManager.__init__`: field assignment, `tempfile.mkdtemp` for
the staging directory, then the isolation check.  The second component
lists the temporary directories created during construction (the staging
directory is created unconditionally, before the check). -/
def DependencyManager.init (in_virtualenv uv_detected : Bool) (mkdtemp : String)
    (requirements : List String) (prefer_uv : Bool) (extra_paths : List String)
    (scripts : List String) (pip_index_url : Option String)
    (force_install : Bool) :
    Except PyErr DependencyManager × List String :=
  let dir := mkdtemp
  let created := [dir]
  if in_virtualenv = false ∧ force_install = false then
    (.error (.depError venvMsg), created)
  else
    (.ok { prefer_uv := prefer_uv, requirements := requirements,
           extra_paths := extra_paths, pip_index_url := pip_index_url,
           force_install := force_install, is_uv := uv_detected,
           scripts := scripts, scripts_dir := dir, module_map := [],
           installed := [] }, created)

/-- The staged copy of a script with stem `base` inside `dir`. -/
def stagedPath (dir base : String) : String := dir ++ "/" ++ base ++ ".py"

/-- Outcome of processing one script in the `_setup_script_modules` loop:
skipped (missing file or non-`DependencyError` failure, logged), a fatal
`DependencyError` (with the instance state at the raise point), or staged
(new instance and world state). -/
inductive ScriptStep where
  | skipped
  | fatal (dm : DependencyManager) (e : PyErr)
  | staged (dm : DependencyManager) (w : World)
deriving Repr

/-- The tail of one loop iteration for a script whose content passed every
check: extend the requirement list with the script's metadata dependencies,
then stage it under the collision-checked module name derived from its
filename stem. -/
def stageScript (sp : String) (meta : ScriptMeta) (dm : DependencyManager)
    (w : World) : ScriptStep :=
  let dm := { dm with requirements := dm.requirements ++ meta.dependencies }
  let base := pathStem sp
  match dm.module_map.find? (fun kv => kv.1 = base) with
  | some kv => .fatal dm (.depError (collisionMsg base sp kv.2))
  | none =>
    let mfile := stagedPath dm.scripts_dir base
    .staged { dm with module_map := dm.module_map ++ [(base, mfile)] }
      { w with stagedFiles := w.stagedFiles ++ [mfile] }

/-- One iteration of the `_setup_script_modules` loop: read, parse
metadata, validate syntax, check the interpreter constraint, then extend
the requirements and stage. -/
def processOne (env : Env) (sp : String) (dm : DependencyManager)
    (w : World) : ScriptStep :=
  match env.readScript sp with
  | .notFound => .skipped
  | .failure _ => .skipped
  | .content c =>
    match env.parseMeta c with
    | .error _ => .skipped
    | .ok meta =>
      if env.syntaxOk c = false then
        .fatal dm (.depError ("Invalid Python script " ++ sp
          ++ ": syntax error"))
      else
        match meta.python_version with
        | some v =>
          if env.pyOk v = false then
            .fatal dm (.depError ("Python version " ++ v
              ++ " required by " ++ sp ++ " not satisfied"))
          else stageScript sp meta dm w
        | none => stageScript sp meta dm w

/-- The per-script loop of `_setup_script_modules`: skipped scripts leave
the state unchanged; a fatal error aborts with the state reached so far. -/
def processScripts (env : Env) :
    List String → DependencyManager → World →
    DependencyManager × World × Option PyErr
  | [], dm, w => (dm, w, none)
  | sp :: rest, dm, w =>
    match processOne env sp dm w with
    | .skipped => processScripts env rest dm w
    | .fatal dm1 e => (dm1, w, some e)
    | .staged dm1 w1 => processScripts env rest dm1 w1

/-- Embeds `_setup_script_modules`: run the per-script loop; when it completes
without a fatal error and at least one module was staged, prepend the
staging directory to `sys.path`. -/
def setupScriptModules (env : Env) (dm : DependencyManager) (w : World) :
    DependencyManager × World × Option PyErr :=
  match processScripts env dm.scripts dm w with
  | (dm1, w1, some e) => (dm1, w1, some e)
  | (dm1, w1, none) =>
    if dm1.module_map.isEmpty then (dm1, w1, none)
    else (dm1, { w1 with sysPath := dm1.scripts_dir :: w1.sysPath }, none)

/-- The PEP 723 requirements harvested from the extra paths in `setup`:
`scan_directory_deps` applied to each extra path that is a directory; an
escaping `is_dir` failure aborts with that (non-`DependencyError`)
exception. -/
def dirDeps (env : Env) : List String → Except String (List String)
  | [] => .ok []
  | p :: rest =>
    match env.isDir p with
    | .error m => .error m
    | .ok false => dirDeps env rest
    | .ok true =>
      match dirDeps env rest with
      | .error m => .error m
      | .ok ds => .ok (env.scanDeps p ++ ds)

/-- Embeds `update_python_path` followed by the defensive `verify_paths` re-check,
the tail of `setup`. -/
def finishPaths (env : Env) (dm : DependencyManager) (w : World) :
    Except PyErr DependencyManager × World :=
  let w' := { w with
    sysPath := update_python_path env.pathOutcome dm.extra_paths w.sysPath }
  if dm.extra_paths.isEmpty then (.ok dm, w')
  else
    match verify_paths env.upathExists env.upathIsDir dm.extra_paths with
    | some e => (.error e, w')
    | none => (.ok dm, w')

/-- The tail of `setup` after successful staging: aggregate and sort the
requirement set, install the missing subset, publish and re-verify the
extra paths. -/
def setupAfterStaging (env : Env) (dm1 : DependencyManager) (w1 : World) :
    Except PyErr DependencyManager × World :=
  match dirDeps env dm1.extra_paths with
  | .error m => (.error (.otherError m), w1)
  | .ok ds =>
    let reqs := sortedSet (dm1.requirements ++ ds)
    let dm2 := { dm1 with requirements := reqs,
                          installed := (dm1.installed ++ reqs).dedup }
    let missing := check_requirements env.lookup reqs
    if missing.isEmpty then finishPaths env dm2 w1
    else
      let pc := get_pip_command env.whichUv env.pyExe dm2.prefer_uv dm2.is_uv
      match install_requirements env.runner missing (some pc)
          dm2.pip_index_url with
      | (.error e, calls) =>
        (.error e, { w1 with installCalls := w1.installCalls ++ calls })
      | (.ok _, calls) =>
        finishPaths env dm2 { w1 with installCalls := w1.installCalls ++ calls }

/-- The body of `setup` (the `try` block): stage scripts, aggregate and
sort requirements, install the missing subset, publish and re-verify the
extra paths. -/
def setupBody (env : Env) (dm : DependencyManager) (w : World) :
    Except PyErr DependencyManager × World :=
  match setupScriptModules env dm w with
  | (_, w1, some e) => (.error e, w1)
  | (dm1, w1, none) => setupAfterStaging env dm1 w1

/-- Embeds `cleanup`: recursively remove the staging directory when it exists
(idempotent). -/
def DependencyManager.cleanup (w : World) : World :=
  if w.stagingExists then { w with stagingExists := false, stagedFiles := [] }
  else w

/-- Embeds `setup`: the body under its exception handler — any exception triggers
`cleanup` and is re-raised, re-wrapped as a `DependencyError` unless it
already is one. -/
def DependencyManager.setup (env : Env) (dm : DependencyManager) (w : World) :
    Except PyErr DependencyManager × World :=
  match setupBody env dm w with
  | (.ok dm', w') => (.ok dm', w')
  | (.error e, w') =>
    let w'' := DependencyManager.cleanup w'
    if e.isDependencyError then (.error e, w'')
    else (.error (.depError ("Dependency setup failed: " ++ e.msg)), w'')


/-! ## Concrete fixtures used by witnesses and counterexamples -/

/-- A benign oracle record: no scripts on disk, empty metadata, everything
valid, nothing installed, installer succeeds. -/
def envBase : Env where
  readScript := fun _ => .notFound
  parseMeta := fun _ => .ok { dependencies := [], python_version := none }
  syntaxOk := fun _ => true
  pyOk := fun _ => true
  isDir := fun _ => .ok false
  scanDeps := fun _ => []
  lookup := fun _ => .notFound
  runner := fun _ => .ok ""
  pathOutcome := fun p => .resolved p true
  upathExists := fun _ => true
  upathIsDir := fun _ => true
  whichUv := none
  pyExe := "/venv/bin/python"

/-- A fresh post-construction world: empty `sys.path` model, staging
directory existing and empty, no installer calls yet. -/
def worldInit : World where
  sysPath := []
  stagingExists := true
  stagedFiles := []
  installCalls := []

/-- A manager instance with no requirements, scripts or extra paths. -/
def dmBase : DependencyManager where
  prefer_uv := false
  requirements := []
  extra_paths := []
  pip_index_url := none
  force_install := false
  is_uv := false
  scripts := []
  scripts_dir := "/tmp/stage"
  module_map := []
  installed := []

/-- Oracles for the end-to-end aggregation example: one script `tool.py`
declaring the dependency `rich`. -/
def envRich : Env := { envBase with
  readScript := fun sp => if sp = "tool.py" then .content "import rich"
    else .notFound
  parseMeta := fun c => if c = "import rich" then
      .ok { dependencies := ["rich"], python_version := none }
    else .ok { dependencies := [], python_version := none } }

/-- Manager for the aggregation example: explicit `requests` plus the
`tool.py` script. -/
def dmRich : DependencyManager :=
  { dmBase with requirements := ["requests"], scripts := ["tool.py"] }

/-- Oracles for the collision scenario: two readable scripts. -/
def envColl : Env := { envBase with
  readScript := fun sp =>
    if sp = "a/tool.py" ∨ sp = "b/tool.py" then .content "x = 1"
    else .notFound }

/-- Manager staging `a/tool.py` then `b/tool.py` (same stem `tool`). -/
def dmColl : DependencyManager :=
  { dmBase with scripts := ["a/tool.py", "b/tool.py"] }

/-- Oracles under which the defensive path re-check fails. -/
def envNoPath : Env := { envBase with upathExists := fun _ => false }

/-- Manager with one extra path (used with `envNoPath` / `envRaise`). -/
def dmExtra : DependencyManager := { dmBase with extra_paths := ["missing"] }

/-- Oracles under which `Path.is_dir` raises a non-`DependencyError`. -/
def envRaise : Env := { envBase with isDir := fun _ => .error "boom" }


/-- The manager state after staging in the aggregation example. -/
def dmRichStaged : DependencyManager :=
  { dmRich with
    requirements := ["requests", "rich"]
    module_map := [("tool", "/tmp/stage/tool.py")] }

/-- The world after staging in the aggregation example. -/
def wRichStaged : World :=
  { worldInit with stagedFiles := ["/tmp/stage/tool.py"] }

/-- The manager state after a successful setup in the aggregation
example. -/
def dmRichFinal : DependencyManager :=
  { dmRichStaged with installed := ["requests", "rich"] }

/-- The world after a successful setup in the aggregation example. -/
def wRichFinal : World :=
  { sysPath := ["/tmp/stage"]
    stagingExists := true
    stagedFiles := ["/tmp/stage/tool.py"]
    installCalls := [["/venv/bin/python", "-m", "pip", "install", "requests",
      "rich"]] }

/-! ## Theorems -/

/-- Appending strings appends their character data. -/
theorem strData_append (a b : String) : (a ++ b).data = a.data ++ b.data := by
  cases a; cases b; rfl


theorem leadsCL_self_append (l t : List Char) : leadsCL l (l ++ t) = true := by
  induction l with
  | nil => rfl
  | cons a as ih => simp [leadsCL, ih]

theorem withinCL_append (pre mid post : List Char) :
    withinCL mid (pre ++ (mid ++ post)) = true := by
  induction pre with
  | nil =>
    cases h : mid ++ post with
    | nil =>
      have hm : mid = [] := by
        cases mid with
        | nil => rfl
        | cons a as => simp at h
      simp [withinCL, hm, leadsCL]
    | cons b bs => simp [withinCL, ← h, leadsCL_self_append]
  | cons a as ih => simp [withinCL, ih]

/-- A string occurs inside the concatenation `pre ++ mid ++ post`. -/
theorem containsStr_append (pre mid post : String) :
    containsStr (pre ++ mid ++ post) mid = true := by
  have h : (pre ++ mid ++ post).data = pre.data ++ (mid.data ++ post.data) := by
    rw [strData_append, strData_append, List.append_assoc]
  rw [containsStr, h]
  exact withinCL_append _ _ _


/-- String append is associative. -/
theorem strAppend_assoc (a b c : String) : (a ++ b) ++ c = a ++ (b ++ c) := by
  cases a; cases b; cases c
  show String.mk _ = String.mk _
  simp [String.instAppend, String.append, List.append_assoc]

/-- A string occurs inside a concatenation that ends with it. -/
theorem containsStr_append2 (pre mid : String) :
    containsStr (pre ++ mid) mid = true := by
  have h : (pre ++ mid).data = pre.data ++ (mid.data ++ []) := by
    rw [strData_append, List.append_nil]
  rw [containsStr, h]
  exact withinCL_append _ _ _

/-- C1 counterexample: constructing a `DependencyManager` outside a virtual
environment with `force_install = False` does raise `DependencyError`, but
the staging directory has been created by then — the construction's list of
created temporary directories is non-empty, contradicting "before any
temporary resources are created". -/
theorem init_outside_venv_creates_staging_counterexample :
    DependencyManager.init false false "/tmp/llmling_scripts_x" [] false [] []
        none false
      = (.error (.depError venvMsg), ["/tmp/llmling_scripts_x"]) ∧
    (["/tmp/llmling_scripts_x"] ≠ ([] : List String)) := by
  exact ⟨rfl, by decide⟩

/-- C1 (amended): for every construction where the environment is not
isolated and the force-install override is not set, construction fails with
`DependencyError` immediately (nothing else of the lifecycle runs), but the
staging temporary directory has already been created by the constructor
before the isolation check, so that one temporary directory exists on this
failure path. -/
theorem init_outside_venv_fails_after_mkdtemp
    (in_venv uv : Bool) (tmp : String) (reqs : List String) (puv : Bool)
    (eps scripts : List String) (idx : Option String) (force : Bool)
    (hv : in_venv = false) (hf : force = false) :
    DependencyManager.init in_venv uv tmp reqs puv eps scripts idx force
      = (.error (.depError venvMsg), [tmp]) := by
  subst hv; subst hf
  simp [DependencyManager.init]

/-- Witness for C1 (amended) at a concrete construction. -/
theorem init_outside_venv_fails_after_mkdtemp_witness :
    (false = false) ∧
    DependencyManager.init false true "/tmp/llmling_scripts_w" ["a"] true
        ["/x"] ["s.py"] (some "https://idx") false
      = (.error (.depError venvMsg), ["/tmp/llmling_scripts_w"]) :=
  ⟨rfl, init_outside_venv_fails_after_mkdtemp false true "/tmp/llmling_scripts_w"
    ["a"] true ["/x"] ["s.py"] (some "https://idx") false rfl rfl⟩

/-- C5: parsing the exact three-line block `# /// script` /
`# dependencies = ["a", "b"]` / `# ///` yields exactly `["a", "b"]` and no
error, and in general the block body is recovered by stripping the
two-character prefix `# ` from content lines and the one-character prefix
`#` from bare comment lines. -/
theorem pep723_concrete_parse_and_prefix_stripping :
    parse_pep723_deps
        ["# /// script", "# dependencies = [\"a\", \"b\"]", "# ///"]
      = .ok ["a", "b"] ∧
    (∀ s : String, stripHashPrefix ("# " ++ s) = s) ∧
    stripHashPrefix "#" = "" := by
  refine ⟨by rfl, ?_, by rfl⟩
  intro s
  obtain ⟨l⟩ := s
  have h : ("# " ++ (String.mk l)).data = '#' :: ' ' :: l := by
    rw [strData_append]; rfl
  simp [stripHashPrefix, h]

/-- C10: in the legacy informal parser, a blank line only closes the
current dependency block without ending the scan; a later stripped line
equal to `# Dependencies:` re-opens collection; the scan ends permanently
exactly at the first line that is neither blank nor a comment; and on a
concrete input with a second opener after a blank, the second block's
requirements are also yielded while everything after the terminating line
is not. -/
theorem informal_blank_closes_scan_continues :
    (∀ (l : String) (rest : List String) (b : Bool), strTrim l = "" →
      informalGo (l :: rest) b = informalGo rest false) ∧
    (∀ (l : String) (rest : List String) (b : Bool),
      strTrim l = "# Dependencies:" →
      informalGo (l :: rest) b = informalGo rest true) ∧
    (∀ (l : String) (rest : List String) (b : Bool), strTrim l ≠ "" →
      startsHash (strTrim l) = false → informalGo (l :: rest) b = []) ∧
    parse_informal_deps ["# Dependencies:", "# foo>=1", "", "# bar",
      "# Dependencies:", "# baz", "x = 1", "# Dependencies:", "# qux"]
      = ["foo>=1", "baz"] := by
  refine ⟨?_, ?_, ?_, by rfl⟩
  · intro l rest b h
    simp [informalGo, h, startsHash]
  · intro l rest b h
    simp [informalGo, h, startsHash]
  · intro l rest b h1 h2
    simp [informalGo, h1, h2]

/-- Witness for C10 at concrete lines. -/
theorem informal_blank_closes_scan_continues_witness :
    (strTrim " " = "") ∧ (strTrim " # Dependencies: " = "# Dependencies:") ∧
    (strTrim "x = 1" ≠ "") ∧ (startsHash (strTrim "x = 1") = false) ∧
    informalGo [" ", "# z"] true = informalGo ["# z"] false ∧
    informalGo [" # Dependencies: ", "# z"] false = informalGo ["# z"] true ∧
    informalGo ["x = 1", "# z"] true = [] :=
  ⟨rfl, rfl, by decide, rfl,
    informal_blank_closes_scan_continues.1 " " ["# z"] true rfl,
    informal_blank_closes_scan_continues.2.1 " # Dependencies: " ["# z"] false rfl,
    informal_blank_closes_scan_continues.2.2.1 "x = 1" ["# z"] true (by decide) rfl⟩

/-- C6: `check_requirements` returns a sub-list (hence subset) of its
input, and a requirement is in the result exactly when its bare name — the
requirement with the version operators `==`, `>=`, `<` split off and the
remainder stripped — is not found in the package-distribution registry
(absence and lookup errors both count as missing). -/
theorem check_requirements_subset_and_classification
    (lookup : String → LookupResult) (reqs : List String) :
    (check_requirements lookup reqs).Sublist reqs ∧
    (∀ r, r ∈ check_requirements lookup reqs ↔
      (r ∈ reqs ∧ lookup (bareName r) ≠ .found)) := by
  induction reqs with
  | nil => exact ⟨List.Sublist.refl _, by simp [check_requirements]⟩
  | cons a as ih =>
    cases hl : lookup (bareName a) with
    | found =>
      refine ⟨?_, ?_⟩
      · simpa [check_requirements, hl] using ih.1.cons a
      · intro r
        rw [check_requirements]
        rw [hl]
        constructor
        · intro hr
          have := (ih.2 r).mp hr
          exact ⟨List.mem_cons_of_mem a this.1, this.2⟩
        · rintro ⟨hmem, hnf⟩
          rcases List.mem_cons.mp hmem with rfl | hmem
          · exact absurd hl hnf
          · exact (ih.2 r).mpr ⟨hmem, hnf⟩
    | notFound =>
      refine ⟨?_, ?_⟩
      · simpa [check_requirements, hl] using ih.1.cons₂ a
      · intro r
        rw [check_requirements]
        rw [hl]
        constructor
        · intro hr
          rcases List.mem_cons.mp hr with rfl | hr
          · exact ⟨List.mem_cons_self _ _, by rw [hl]; intro h; cases h⟩
          · have := (ih.2 r).mp hr
            exact ⟨List.mem_cons_of_mem a this.1, this.2⟩
        · rintro ⟨hmem, hnf⟩
          rcases List.mem_cons.mp hmem with rfl | hmem
          · exact List.mem_cons_self _ _
          · exact List.mem_cons_of_mem a ((ih.2 r).mpr ⟨hmem, hnf⟩)
    | lookupError m =>
      refine ⟨?_, ?_⟩
      · simpa [check_requirements, hl] using ih.1.cons₂ a
      · intro r
        rw [check_requirements]
        rw [hl]
        constructor
        · intro hr
          rcases List.mem_cons.mp hr with rfl | hr
          · exact ⟨List.mem_cons_self _ _, by rw [hl]; intro h; cases h⟩
          · have := (ih.2 r).mp hr
            exact ⟨List.mem_cons_of_mem a this.1, this.2⟩
        · rintro ⟨hmem, hnf⟩
          rcases List.mem_cons.mp hmem with rfl | hmem
          · exact List.mem_cons_self _ _
          · exact List.mem_cons_of_mem a ((ih.2 r).mpr ⟨hmem, hnf⟩)

/-- C7: `install_requirements` on an empty list returns without invoking
the installer; on a non-empty list it invokes exactly the command
`<installer> install [--index-url <url>] <requirement>...`, succeeds on
exit 0, fails with `DependencyError` carrying the captured stderr on a
non-zero exit, and fails with `DependencyError` on any other invocation
failure. -/
theorem install_requirements_contract
    (runner : List String → ExitResult) (pc : Option (List String))
    (idx : Option String) :
    install_requirements runner [] pc idx = (.ok [], []) ∧
    (∀ reqs : List String, reqs ≠ [] →
      (install_requirements runner reqs pc idx).2
          = [buildInstallCmd (pc.getD ["pip"]) idx reqs] ∧
      (∀ out, runner (buildInstallCmd (pc.getD ["pip"]) idx reqs) = .ok out →
        (install_requirements runner reqs pc idx).1 = .ok reqs) ∧
      (∀ stderr,
        runner (buildInstallCmd (pc.getD ["pip"]) idx reqs) = .nonzero stderr →
        (install_requirements runner reqs pc idx).1 = .error (.depError
          (("Failed to install requirements: command returned non-zero exit status"
            ++ "\nOutput: ") ++ stderr)) ∧
        containsStr
          (("Failed to install requirements: command returned non-zero exit status"
            ++ "\nOutput: ") ++ stderr) stderr = true) ∧
      (∀ m,
        runner (buildInstallCmd (pc.getD ["pip"]) idx reqs) = .invokeError m →
        (install_requirements runner reqs pc idx).1 = .error (.depError
          ("Unexpected error installing requirements: " ++ m)))) := by
  constructor
  · rfl
  · intro reqs hne
    have hie : reqs.isEmpty = false := by
      cases reqs with
      | nil => exact absurd rfl hne
      | cons a as => rfl
    refine ⟨?_, ?_, ?_, ?_⟩
    · rw [install_requirements]
      rw [hie]
      simp only [Bool.false_eq_true, if_false]
      cases hr : runner (buildInstallCmd (pc.getD ["pip"]) idx reqs) <;> rfl
    · intro out hr
      rw [install_requirements]
      rw [hie]
      simp only [Bool.false_eq_true, if_false]
      rw [hr]
    · intro stderr hr
      constructor
      · rw [install_requirements]
        rw [hie]
        simp only [Bool.false_eq_true, if_false]
        rw [hr]
      · exact containsStr_append2 _ _
    · intro m hr
      rw [install_requirements]
      rw [hie]
      simp only [Bool.false_eq_true, if_false]
      rw [hr]

/-- Witness for C7: a concrete failing installer invocation. -/
theorem install_requirements_contract_witness :
    (["rich"] ≠ ([] : List String)) ∧
    install_requirements (fun _ => ExitResult.nonzero "boom") [] none none
      = (.ok [], []) ∧
    ((install_requirements (fun _ => ExitResult.nonzero "boom") ["rich"] none
        none).2
      = [buildInstallCmd (((none : Option (List String))).getD ["pip"]) none
          ["rich"]] ∧
    (∀ out, (fun _ => ExitResult.nonzero "boom")
        (buildInstallCmd (((none : Option (List String))).getD ["pip"]) none
          ["rich"]) = .ok out →
      (install_requirements (fun _ => ExitResult.nonzero "boom") ["rich"] none
        none).1 = .ok ["rich"]) ∧
    (∀ stderr, (fun _ => ExitResult.nonzero "boom")
        (buildInstallCmd (((none : Option (List String))).getD ["pip"]) none
          ["rich"]) = .nonzero stderr →
      (install_requirements (fun _ => ExitResult.nonzero "boom") ["rich"] none
        none).1 = .error (.depError
          (("Failed to install requirements: command returned non-zero exit status"
            ++ "\nOutput: ") ++ stderr)) ∧
      containsStr
        (("Failed to install requirements: command returned non-zero exit status"
          ++ "\nOutput: ") ++ stderr) stderr = true) ∧
    (∀ m, (fun _ => ExitResult.nonzero "boom")
        (buildInstallCmd (((none : Option (List String))).getD ["pip"]) none
          ["rich"]) = .invokeError m →
      (install_requirements (fun _ => ExitResult.nonzero "boom") ["rich"] none
        none).1 = .error (.depError
          ("Unexpected error installing requirements: " ++ m)))) :=
  ⟨by decide,
    (install_requirements_contract (fun _ => ExitResult.nonzero "boom") none
      none).1,
    (install_requirements_contract (fun _ => ExitResult.nonzero "boom") none
      none).2 ["rich"] (by decide)⟩

theorem update_python_path_extends (po : String → PathOutcome) :
    ∀ (ps sysPath : List String),
      sysPath <+: update_python_path po ps sysPath := by
  intro ps
  induction ps with
  | nil => intro sp; exact List.prefix_refl _
  | cons p rest ih =>
    intro sp
    rw [update_python_path]
    cases hpo : po p with
    | failure m => exact ih sp
    | resolved abs exs =>
      cases exs with
      | false => simp only [if_pos rfl]; exact ih sp
      | true =>
        simp only [Bool.true_eq_false, if_false]
        by_cases hmem : abs ∈ sp
        · rw [if_pos hmem]; exact ih sp
        · rw [if_neg hmem]
          exact (List.prefix_append sp [abs]).trans (ih (sp ++ [abs]))

theorem update_python_path_nodup (po : String → PathOutcome) :
    ∀ (ps sysPath : List String), sysPath.Nodup →
      (update_python_path po ps sysPath).Nodup := by
  intro ps
  induction ps with
  | nil => intro sp h; exact h
  | cons p rest ih =>
    intro sp h
    rw [update_python_path]
    cases hpo : po p with
    | failure m => exact ih sp h
    | resolved abs exs =>
      cases exs with
      | false => simp only [if_pos rfl]; exact ih sp h
      | true =>
        simp only [Bool.true_eq_false, if_false]
        by_cases hmem : abs ∈ sp
        · rw [if_pos hmem]; exact ih sp h
        · rw [if_neg hmem]
          refine ih (sp ++ [abs]) ?_
          rw [List.nodup_append]
          exact ⟨h, List.nodup_singleton _, by
            intro a ha hb
            rw [List.mem_singleton] at hb
            subst hb
            exact hmem ha⟩

theorem update_python_path_mem (po : String → PathOutcome) :
    ∀ (ps sysPath : List String) (x : String),
      x ∈ update_python_path po ps sysPath ↔
        (x ∈ sysPath ∨ ∃ p, p ∈ ps ∧ po p = .resolved x true) := by
  intro ps
  induction ps with
  | nil => intro sp x; simp [update_python_path]
  | cons p rest ih =>
    intro sp x
    rw [update_python_path]
    cases hpo : po p with
    | failure m =>
      rw [ih sp x]
      constructor
      · rintro (h | ⟨q, hq, hr⟩)
        · exact Or.inl h
        · exact Or.inr ⟨q, List.mem_cons_of_mem p hq, hr⟩
      · rintro (h | ⟨q, hq, hr⟩)
        · exact Or.inl h
        · rcases List.mem_cons.mp hq with rfl | hq
          · rw [hpo] at hr; cases hr
          · exact Or.inr ⟨q, hq, hr⟩
    | resolved abs exs =>
      cases exs with
      | false =>
        simp only [if_pos rfl, if_true]
        rw [ih sp x]
        constructor
        · rintro (h | ⟨q, hq, hr⟩)
          · exact Or.inl h
          · exact Or.inr ⟨q, List.mem_cons_of_mem p hq, hr⟩
        · rintro (h | ⟨q, hq, hr⟩)
          · exact Or.inl h
          · rcases List.mem_cons.mp hq with rfl | hq
            · rw [hpo] at hr; cases hr
            · exact Or.inr ⟨q, hq, hr⟩
      | true =>
        simp only [Bool.true_eq_false, if_false]
        by_cases hmem : abs ∈ sp
        · rw [if_pos hmem]
          rw [ih sp x]
          constructor
          · rintro (h | ⟨q, hq, hr⟩)
            · exact Or.inl h
            · exact Or.inr ⟨q, List.mem_cons_of_mem p hq, hr⟩
          · rintro (h | ⟨q, hq, hr⟩)
            · exact Or.inl h
            · rcases List.mem_cons.mp hq with rfl | hq
              · rw [hpo] at hr
                injection hr with h1 h2
                subst h1
                exact Or.inl hmem
              · exact Or.inr ⟨q, hq, hr⟩
        · rw [if_neg hmem]
          rw [ih (sp ++ [abs]) x]
          constructor
          · rintro (h | ⟨q, hq, hr⟩)
            · rcases List.mem_append.mp h with h | h
              · exact Or.inl h
              · rw [List.mem_singleton] at h
                subst h
                exact Or.inr ⟨p, List.mem_cons_self _ _, hpo⟩
            · exact Or.inr ⟨q, List.mem_cons_of_mem p hq, hr⟩
          · rintro (h | ⟨q, hq, hr⟩)
            · exact Or.inl (List.mem_append.mpr (Or.inl h))
            · rcases List.mem_cons.mp hq with rfl | hq
              · rw [hpo] at hr
                injection hr with h1 h2
                subst h1
                exact Or.inl (List.mem_append.mpr (Or.inr (List.mem_singleton.mpr rfl)))
              · exact Or.inr ⟨q, hq, hr⟩

/-- C8: the search-path publisher appends (never prepends) to `sys.path`
— the old path is a prefix of the new one; it preserves freedom from
duplicates; an entry is in the published path exactly when it was already
there or it is the resolved form of some extra path that exists; and a
per-path resolution failure is skipped without aborting the remaining
paths. -/
theorem update_python_path_contract (po : String → PathOutcome)
    (ps sysPath : List String) :
    (sysPath <+: update_python_path po ps sysPath) ∧
    (sysPath.Nodup → (update_python_path po ps sysPath).Nodup) ∧
    (∀ x, x ∈ update_python_path po ps sysPath ↔
      (x ∈ sysPath ∨ ∃ p, p ∈ ps ∧ po p = .resolved x true)) ∧
    (∀ (p : String) (rest : List String) (m : String), po p = .failure m →
      update_python_path po (p :: rest) sysPath
        = update_python_path po rest sysPath) := by
  refine ⟨update_python_path_extends po ps sysPath,
    update_python_path_nodup po ps sysPath,
    update_python_path_mem po ps sysPath, ?_⟩
  intro p rest m hpo
  rw [update_python_path]
  rw [hpo]

/-- Witness for C8 at a concrete path list with one failing path. -/
theorem update_python_path_contract_witness :
    ((["/pre"] : List String).Nodup) ∧
    ((fun p => if p = "bad" then PathOutcome.failure "e"
        else PathOutcome.resolved ("/abs/" ++ p) true) "bad"
      = PathOutcome.failure "e") ∧
    (update_python_path (fun p => if p = "bad" then PathOutcome.failure "e"
        else PathOutcome.resolved ("/abs/" ++ p) true) ["x"] ["/pre"]).Nodup ∧
    update_python_path (fun p => if p = "bad" then PathOutcome.failure "e"
        else PathOutcome.resolved ("/abs/" ++ p) true) ["bad", "x"] ["/pre"]
      = update_python_path (fun p => if p = "bad" then PathOutcome.failure "e"
        else PathOutcome.resolved ("/abs/" ++ p) true) ["x"] ["/pre"] :=
  ⟨by decide, by decide,
    (update_python_path_contract _ ["x"] ["/pre"]).2.1 (by decide),
    (update_python_path_contract _ [] ["/pre"]).2.2.2 "bad" ["x"] "e" (by decide)⟩

/-- A line that is not a content line cannot be a start marker. -/
theorem startType?_none_of_not_content (l : String)
    (h : isContentLine l = false) : startType? l = none := by
  rw [startType?]
  split
  · rename_i rest heq
    exfalso
    rw [isContentLine, heq] at h
    simp at h
  · rfl

/-- One unfolding step of the block scan. -/
theorem findBlocksAux_succ (fuel : Nat) (l : String) (rest : List String) :
    findBlocksAux (fuel + 1) (l :: rest) =
      match startType? l with
      | none => findBlocksAux fuel rest
      | some t =>
        match tryMatch rest with
        | none => findBlocksAux fuel rest
        | some (content, rem) => (t, content) :: findBlocksAux fuel rem := rfl

/-- A scan step that finds a match. -/
theorem findBlocksAux_step_found (fuel : Nat) (l : String)
    (rest : List String) (t : String) (content rem : List String)
    (hst : startType? l = some t) (htm : tryMatch rest = some (content, rem)) :
    findBlocksAux (fuel + 1) (l :: rest)
      = (t, content) :: findBlocksAux fuel rem := by
  rw [findBlocksAux_succ, hst, htm]

/-- A scan step at a line that is no start marker. -/
theorem findBlocksAux_step_skip (fuel : Nat) (l : String)
    (rest : List String) (hst : startType? l = none) :
    findBlocksAux (fuel + 1) (l :: rest) = findBlocksAux fuel rest := by
  rw [findBlocksAux_succ, hst]

/-- C4 counterexample: a text consisting of two adjacent `# /// script` …
`# ///` blocks (no separating line).  The greedy content group merges both
blocks into a single match whose closing marker is the *last* `# ///`, so
parsing fails with the invalid-configuration-syntax `ScriptError`, not with
one reporting multiple metadata blocks. -/
theorem pep723_two_adjacent_blocks_counterexample :
    parse_pep723_deps ["# /// script", "# dependencies = [\"a\"]", "# ///",
        "# /// script", "# dependencies = [\"b\"]", "# ///"]
      = .error (.scriptError
          "Invalid TOML in script metadata: invalid statement: ///") ∧
    ("Invalid TOML in script metadata: invalid statement: ///"
      ≠ "Multiple script metadata blocks found") :=
  ⟨rfl, by decide⟩

/-- The scan of the empty line list finds nothing, whatever the fuel. -/
theorem findBlocksAux_nil (f : Nat) : findBlocksAux f [] = [] := by
  cases f <;> rfl

/-- A scan step whose start marker finds no closing match. -/
theorem findBlocksAux_step_nomatch (fuel : Nat) (l : String)
    (rest : List String) (t : String) (hst : startType? l = some t)
    (htm : tryMatch rest = none) :
    findBlocksAux (fuel + 1) (l :: rest) = findBlocksAux fuel rest := by
  rw [findBlocksAux_succ, hst, htm]

/-- A successful match leaves at most as many lines as it was given. -/
theorem tryMatch_rem_length (ls content rem : List String)
    (h : tryMatch ls = some (content, rem)) : rem.length ≤ ls.length := by
  simp only [tryMatch] at h
  split at h
  · cases h
  · injection h with h1
    have h2 := congrArg Prod.snd h1
    simp only at h2
    rw [← h2, List.length_drop]
    omega

/-- The scan result does not depend on the fuel once the fuel covers the
number of lines. -/
theorem findBlocksAux_congr : ∀ (n : Nat) (ls : List String),
    ls.length ≤ n → ∀ (f1 f2 : Nat), ls.length ≤ f1 → ls.length ≤ f2 →
    findBlocksAux f1 ls = findBlocksAux f2 ls := by
  intro n
  induction n with
  | zero =>
    intro ls hls f1 f2 _ _
    have h0 : ls = [] := List.length_eq_zero.mp (Nat.le_zero.mp hls)
    subst h0
    rw [findBlocksAux_nil, findBlocksAux_nil]
  | succ n ih =>
    intro ls hls f1 f2 h1 h2
    cases ls with
    | nil => rw [findBlocksAux_nil, findBlocksAux_nil]
    | cons l rest =>
      rw [List.length_cons] at hls h1 h2
      cases f1 with
      | zero => omega
      | succ a =>
        cases f2 with
        | zero => omega
        | succ b =>
          cases hst : startType? l with
          | none =>
            rw [findBlocksAux_step_skip a l rest hst,
              findBlocksAux_step_skip b l rest hst]
            exact ih rest (by omega) a b (by omega) (by omega)
          | some t =>
            cases htm : tryMatch rest with
            | none =>
              rw [findBlocksAux_step_nomatch a l rest t hst htm,
                findBlocksAux_step_nomatch b l rest t hst htm]
              exact ih rest (by omega) a b (by omega) (by omega)
            | some pr =>
              obtain ⟨content, rem⟩ := pr
              have hrem := tryMatch_rem_length rest content rem htm
              rw [findBlocksAux_step_found a l rest t content rem hst htm,
                findBlocksAux_step_found b l rest t content rem hst htm]
              exact congrArg (List.cons (t, content))
                (ih rem (by omega) a b (by omega) (by omega))

/-- Sufficient fuel computes `findBlocks`. -/
theorem findBlocksAux_eq_findBlocks (f : Nat) (ls : List String)
    (h : ls.length ≤ f) : findBlocksAux f ls = findBlocks ls :=
  findBlocksAux_congr ls.length ls (Nat.le_refl _) f ls.length h
    (Nat.le_refl _)

/-- The scan skips a line that is no start marker. -/
theorem findBlocks_cons_skip (l : String) (rest : List String)
    (h : startType? l = none) : findBlocks (l :: rest) = findBlocks rest := by
  rw [findBlocks, List.length_cons, findBlocksAux_step_skip rest.length l
    rest h]
  rfl

/-- The scan skips any leading run of lines that are no start markers. -/
theorem findBlocks_append_skip (pre rest : List String)
    (h : ∀ l ∈ pre, startType? l = none) :
    findBlocks (pre ++ rest) = findBlocks rest := by
  induction pre with
  | nil => rfl
  | cons p ps ih =>
    rw [List.cons_append,
      findBlocks_cons_skip p (ps ++ rest) (h p (List.mem_cons_self p ps))]
    exact ih (fun l hl => h l (List.mem_cons_of_mem p hl))

/-- A found match contributes its typed content and the scan continues on
the remainder. -/
theorem findBlocks_cons_found (l : String) (rest : List String) (t : String)
    (content rem : List String) (hst : startType? l = some t)
    (htm : tryMatch rest = some (content, rem)) :
    findBlocks (l :: rest) = (t, content) :: findBlocks rem := by
  rw [findBlocks, List.length_cons,
    findBlocksAux_step_found rest.length l rest t content rem hst htm]
  exact congrArg (List.cons (t, content))
    (findBlocksAux_eq_findBlocks rest.length rem
      (tryMatch_rem_length rest content rem htm))

/-- Helper: `takeWhile` passes over a block of satisfying lines. -/
theorem takeWhile_append_all (p : String → Bool) (xs ys : List String)
    (h : ∀ l ∈ xs, p l = true) :
    (xs ++ ys).takeWhile p = xs ++ ys.takeWhile p := by
  induction xs with
  | nil => rfl
  | cons x xs ih =>
    rw [List.cons_append, List.takeWhile_cons, h x (List.mem_cons_self x xs),
      if_pos rfl, ih (fun l hl => h l (List.mem_cons_of_mem x hl))]
    rfl

/-- Helper: indexing just past a leading segment. -/
theorem getD_append_cons (xs : List String) (a : String) (ys : List String)
    (d : String) : (xs ++ a :: ys).getD xs.length d = a := by
  induction xs with
  | nil => rfl
  | cons x xs ih =>
    rw [List.cons_append, List.length_cons, List.getD_cons_succ]
    exact ih

/-- In a comment run consisting of non-empty content followed by `# ///`,
greedy backtracking picks that final line as the closing marker. -/
theorem endIdx?_block (c : List String) (hcn : c ≠ []) :
    endIdx? (c ++ ["# ///"]) = some c.length := by
  have hem : "# ///" = endMarker := by decide
  have hgetD : (c ++ ["# ///"]).getD c.length "" = endMarker := by
    rw [getD_append_cons]
    exact hem
  have h1 : 1 ≤ c.length := List.length_pos.mpr hcn
  have hone : decide (1 ≤ c.length) = true := by simp [h1]
  have hd : decide ((c ++ ["# ///"]).getD c.length "" = endMarker) = true := by
    rw [hgetD]
    simp
  rw [endIdx?]
  have hlen : (c ++ ["# ///"]).length = c.length + 1 := by simp
  rw [hlen, List.range_succ, List.filter_append]
  simp only [List.filter_singleton]
  rw [hone, hd]
  simp only [Bool.and_self, cond_true]
  rw [List.getLast?_concat]

/-- A block whose closing `# ///` is followed by a non-comment line matches
with exactly its own content. -/
theorem tryMatch_block (c : List String) (r : String) (rest : List String)
    (hc : ∀ l ∈ c, isContentLine l = true) (hcn : c ≠ [])
    (hr : isContentLine r = false) :
    tryMatch (c ++ ("# ///" :: r :: rest)) = some (c, r :: rest) := by
  have hend : isContentLine "# ///" = true := rfl
  have hrun : (c ++ ("# ///" :: r :: rest)).takeWhile isContentLine
      = c ++ ["# ///"] := by
    rw [takeWhile_append_all isContentLine c _ hc, List.takeWhile_cons, hend,
      if_pos rfl, List.takeWhile_cons, hr]
    simp
  simp only [tryMatch]
  rw [hrun, endIdx?_block c hcn]
  show some ((c ++ ["# ///"]).take c.length,
    (c ++ ("# ///" :: r :: rest)).drop (c.length + 1)) = some (c, r :: rest)
  rw [List.take_left]
  have hd : c ++ ("# ///" :: r :: rest) = (c ++ ["# ///"]) ++ (r :: rest) := by
    simp
  have hl : c.length + 1 = (c ++ ["# ///"]).length := by simp
  rw [hd, hl, List.drop_left]

/-- A block whose closing `# ///` is followed by arbitrary lines still
yields a match (its content may extend further, but a closing marker
exists). -/
theorem tryMatch_exists (c : List String) (rest : List String)
    (hc : ∀ l ∈ c, isContentLine l = true) (hcn : c ≠ []) :
    ∃ pr, tryMatch (c ++ ("# ///" :: rest)) = some pr := by
  have hend : isContentLine "# ///" = true := rfl
  have hrun : (c ++ ("# ///" :: rest)).takeWhile isContentLine
      = c ++ ("# ///" :: rest.takeWhile isContentLine) := by
    rw [takeWhile_append_all isContentLine c _ hc, List.takeWhile_cons, hend,
      if_pos rfl]
  have hgetD : (c ++ ("# ///" :: rest.takeWhile isContentLine)).getD c.length ""
      = endMarker := by
    rw [getD_append_cons]
    decide
  have h1 : 1 ≤ c.length := List.length_pos.mpr hcn
  have hone : decide (1 ≤ c.length) = true := by simp [h1]
  have hd : decide ((c ++ ("# ///" :: rest.takeWhile isContentLine)).getD
      c.length "" = endMarker) = true := by
    rw [hgetD]
    simp
  have hmem : c.length ∈ (List.range
      ((c ++ ("# ///" :: rest.takeWhile isContentLine)).length)).filter
      (fun p => decide (1 ≤ p) && decide ((c ++ ("# ///" ::
        rest.takeWhile isContentLine)).getD p "" = endMarker)) := by
    rw [List.mem_filter]
    refine ⟨?_, ?_⟩
    · rw [List.mem_range]
      simp
    · show (decide (1 ≤ c.length) && decide ((c ++ ("# ///" ::
        rest.takeWhile isContentLine)).getD c.length "" = endMarker)) = true
      rw [hone, hd]
      rfl
  have hend2 : ∃ p, endIdx? (c ++ ("# ///" :: rest.takeWhile isContentLine))
      = some p := by
    rw [endIdx?]
    exact Option.isSome_iff_exists.mp
      (List.getLast?_isSome.mpr (List.ne_nil_of_mem hmem))
  obtain ⟨p, hp⟩ := hend2
  simp only [tryMatch]
  rw [hrun, hp]
  exact ⟨_, rfl⟩

/-- Two or more script-typed matches make parsing fail with the
multiple-blocks error. -/
theorem parse_pep723_multiple (lines : List String)
    (h : 2 ≤ ((findBlocks lines).filter (fun b => b.1 = "script")).length) :
    parse_pep723_deps lines
      = .error (.scriptError "Multiple script metadata blocks found") := by
  have h1 : ((findBlocks lines).filter (fun b => b.1 = "script")).length > 1 :=
    h
  simp only [parse_pep723_deps]
  rw [if_pos h1]

/-- C4 (amended): parsing fails with the ScriptError reporting multiple
metadata blocks for every input text of the shape: any leading run of
non-comment lines, a `# /// script` block with non-empty comment content,
separating lines all of which are non-comment (at least one), a second
`# /// script` block with non-empty comment content, and arbitrary
trailing lines.  The two restrictions are forced by the regex's greedy
scan: two adjacent blocks inside one contiguous comment run merge into a
single match (parsing then fails with an invalid-TOML ScriptError
instead), and comment lines directly above the first block can absorb its
opening marker into an earlier match's content, in which case parsing can
even succeed. -/
theorem pep723_two_separated_blocks_error
    (pre c1 mid c2 post : List String)
    (hpre : ∀ l ∈ pre, isContentLine l = false)
    (hc1 : ∀ l ∈ c1, isContentLine l = true) (hc1n : c1 ≠ [])
    (hmid : ∀ l ∈ mid, isContentLine l = false) (hmidn : mid ≠ [])
    (hc2 : ∀ l ∈ c2, isContentLine l = true) (hc2n : c2 ≠ []) :
    parse_pep723_deps (pre ++ ["# /// script"] ++ c1 ++ ["# ///"] ++ mid
      ++ ["# /// script"] ++ c2 ++ ["# ///"] ++ post)
      = .error (.scriptError "Multiple script metadata blocks found") := by
  obtain ⟨m, mid', rfl⟩ : ∃ m mid', mid = m :: mid' := by
    cases mid with
    | nil => exact absurd rfl hmidn
    | cons a b => exact ⟨a, b, rfl⟩
  apply parse_pep723_multiple
  have hsh : pre ++ ["# /// script"] ++ c1 ++ ["# ///"] ++ (m :: mid')
      ++ ["# /// script"] ++ c2 ++ ["# ///"] ++ post
      = pre ++ ("# /// script" :: (c1 ++ ("# ///" :: m :: (mid' ++
          ("# /// script" :: (c2 ++ ("# ///" :: post))))))) := by
    simp
  rw [hsh]
  have hpre2 : ∀ l ∈ pre, startType? l = none :=
    fun l hl => startType?_none_of_not_content l (hpre l hl)
  rw [findBlocks_append_skip pre _ hpre2]
  have hstart : startType? "# /// script" = some "script" := rfl
  have htm1 : tryMatch (c1 ++ ("# ///" :: m :: (mid' ++
      ("# /// script" :: (c2 ++ ("# ///" :: post))))))
      = some (c1, m :: (mid' ++ ("# /// script" :: (c2 ++ ("# ///" ::
          post))))) :=
    tryMatch_block c1 m _ hc1 hc1n (hmid m (List.mem_cons_self m mid'))
  rw [findBlocks_cons_found _ _ _ _ _ hstart htm1]
  have hmid2 : ∀ l ∈ (m :: mid'), startType? l = none :=
    fun l hl => startType?_none_of_not_content l (hmid l hl)
  have hskip2 : findBlocks (m :: (mid' ++ ("# /// script" ::
      (c2 ++ ("# ///" :: post)))))
      = findBlocks ("# /// script" :: (c2 ++ ("# ///" :: post))) := by
    have h := findBlocks_append_skip (m :: mid')
      ("# /// script" :: (c2 ++ ("# ///" :: post))) hmid2
    simpa using h
  rw [hskip2]
  obtain ⟨⟨ct2, rem2⟩, htm2⟩ := tryMatch_exists c2 post hc2 hc2n
  rw [findBlocks_cons_found _ _ _ _ _ hstart htm2]
  rw [List.filter_cons, List.filter_cons]
  simp

/-- Witness for C4 (amended) at concrete lines with leading, separating and
trailing non-comment lines. -/
theorem pep723_two_separated_blocks_error_witness :
    (∀ l ∈ ["import foo"], isContentLine l = false) ∧
    (∀ l ∈ ["# dependencies = [\"a\"]"], isContentLine l = true) ∧
    (∀ l ∈ ["x = 1"], isContentLine l = false) ∧
    (∀ l ∈ ["# dependencies = [\"b\"]"], isContentLine l = true) ∧
    parse_pep723_deps (["import foo"] ++ ["# /// script"]
      ++ ["# dependencies = [\"a\"]"] ++ ["# ///"] ++ ["x = 1"]
      ++ ["# /// script"] ++ ["# dependencies = [\"b\"]"] ++ ["# ///"]
      ++ ["print(1)"])
      = .error (.scriptError "Multiple script metadata blocks found") :=
  ⟨by decide, by decide, by decide, by decide,
    pep723_two_separated_blocks_error ["import foo"]
      ["# dependencies = [\"a\"]"] ["x = 1"] ["# dependencies = [\"b\"]"]
      ["print(1)"] (by decide) (by decide) (by decide) (by decide)
      (by decide) (by decide) (by decide)⟩

theorem stageScript_ne_skipped (sp : String) (meta : ScriptMeta)
    (dm : DependencyManager) (w : World) :
    stageScript sp meta dm w ≠ .skipped := by
  rw [stageScript]
  split
  · intro h; cases h
  · intro h; cases h

theorem stageScript_staged_spec (sp : String) (meta : ScriptMeta)
    (dm : DependencyManager) (w : World) (dmS : DependencyManager) (wS : World)
    (h : stageScript sp meta dm w = .staged dmS wS) :
    dmS.requirements = dm.requirements ++ meta.dependencies ∧
    dmS.module_map = dm.module_map
      ++ [(pathStem sp, stagedPath dm.scripts_dir (pathStem sp))] ∧
    dmS.scripts_dir = dm.scripts_dir ∧
    dmS.extra_paths = dm.extra_paths ∧
    wS = { w with stagedFiles := w.stagedFiles
      ++ [stagedPath dm.scripts_dir (pathStem sp)] } := by
  rw [stageScript] at h
  split at h
  · cases h
  · cases h
    exact ⟨rfl, rfl, rfl, rfl, rfl⟩

theorem stageScript_fatal_spec (sp : String) (meta : ScriptMeta)
    (dm : DependencyManager) (w : World) (dmF : DependencyManager) (e : PyErr)
    (h : stageScript sp meta dm w = .fatal dmF e) :
    dmF.requirements = dm.requirements ++ meta.dependencies ∧
    ∃ kv, dm.module_map.find? (fun x => x.1 = pathStem sp) = some kv ∧
      e = .depError (collisionMsg (pathStem sp) sp kv.2) := by
  rw [stageScript] at h
  split at h
  · rename_i kv heq
    cases h
    exact ⟨rfl, kv, heq, rfl⟩
  · cases h

theorem processOne_ok_cases (env : Env) (sp : String)
    (dm : DependencyManager) (w : World) (c : String) (meta : ScriptMeta)
    (hr : env.readScript sp = .content c) (hp : env.parseMeta c = .ok meta)
    (hs : env.syntaxOk c = true) :
    processOne env sp dm w = stageScript sp meta dm w ∨
    (∃ v, meta.python_version = some v ∧ env.pyOk v = false ∧
      processOne env sp dm w = .fatal dm (.depError ("Python version " ++ v
        ++ " required by " ++ sp ++ " not satisfied"))) := by
  unfold processOne
  simp only [hr, hp, hs, Bool.true_eq_false, if_false]
  cases hv : meta.python_version with
  | none => exact Or.inl rfl
  | some v =>
    cases hok : env.pyOk v with
    | true => exact Or.inl (by simp [hok])
    | false => exact Or.inr ⟨v, rfl, hok, by simp [hok]⟩

/-- C3 counterexample: staging `a/tool.py` then `b/tool.py` (same stem,
different directories) fails with the collision `DependencyError`, but the
message does not name the first conflicting source path `a/tool.py` — the
module map records the staged copy `/tmp/stage/tool.py`, not the original
source path. -/
theorem staging_collision_counterexample :
    (DependencyManager.setup envColl dmColl worldInit).1
      = .error (.depError
          (collisionMsg "tool" "b/tool.py" "/tmp/stage/tool.py")) ∧
    containsStr (collisionMsg "tool" "b/tool.py" "/tmp/stage/tool.py")
        "a/tool.py" = false :=
  ⟨rfl, by decide⟩

/-- C3 (amended): staging two distinct scripts with the same filename stem
fails with a `DependencyError` that aborts the whole setup; its message
names the current script path and the path already recorded in the module
map — which is the staged copy of the first script inside the staging
directory, not the first script's original source path. -/
theorem staging_collision_aborts_setup
    (env : Env) (dm : DependencyManager) (w : World) (sp1 sp2 c1 c2 : String)
    (m1 m2 : ScriptMeta)
    (hscripts : dm.scripts = [sp1, sp2]) (hmap : dm.module_map = [])
    (h1 : env.readScript sp1 = .content c1) (hp1 : env.parseMeta c1 = .ok m1)
    (hs1 : env.syntaxOk c1 = true) (hv1 : m1.python_version = none)
    (h2 : env.readScript sp2 = .content c2) (hp2 : env.parseMeta c2 = .ok m2)
    (hs2 : env.syntaxOk c2 = true) (hv2 : m2.python_version = none)
    (hstem : pathStem sp2 = pathStem sp1) :
    (DependencyManager.setup env dm w).1 = .error (.depError
      (collisionMsg (pathStem sp2) sp2
        (stagedPath dm.scripts_dir (pathStem sp1)))) ∧
    containsStr (collisionMsg (pathStem sp2) sp2
      (stagedPath dm.scripts_dir (pathStem sp1))) sp2 = true ∧
    containsStr (collisionMsg (pathStem sp2) sp2
      (stagedPath dm.scripts_dir (pathStem sp1)))
      (stagedPath dm.scripts_dir (pathStem sp1)) = true := by
  have hso1 : processOne env sp1 dm w = stageScript sp1 m1 dm w := by
    rcases processOne_ok_cases env sp1 dm w c1 m1 h1 hp1 hs1 with h | ⟨v, hv, _, _⟩
    · exact h
    · rw [hv1] at hv; cases hv
  have hss1 : stageScript sp1 m1 dm w = .staged
      { dm with
        requirements := (dm.requirements ++ m1.dependencies)
        module_map := (dm.module_map
          ++ [(pathStem sp1, stagedPath dm.scripts_dir (pathStem sp1))]) }
      { w with
        stagedFiles := (w.stagedFiles
          ++ [stagedPath dm.scripts_dir (pathStem sp1)]) } := by
    simp only [stageScript, hmap]
    rfl
  have hso2 : processOne env sp2
      { dm with
        requirements := (dm.requirements ++ m1.dependencies)
        module_map := (dm.module_map
          ++ [(pathStem sp1, stagedPath dm.scripts_dir (pathStem sp1))]) }
      { w with
        stagedFiles := (w.stagedFiles
          ++ [stagedPath dm.scripts_dir (pathStem sp1)]) }
      = stageScript sp2 m2
        { dm with
          requirements := (dm.requirements ++ m1.dependencies)
          module_map := (dm.module_map
            ++ [(pathStem sp1, stagedPath dm.scripts_dir (pathStem sp1))]) }
        { w with
          stagedFiles := (w.stagedFiles
            ++ [stagedPath dm.scripts_dir (pathStem sp1)]) } := by
    rcases processOne_ok_cases env sp2 _ _ c2 m2 h2 hp2 hs2 with h | ⟨v, hv, _, _⟩
    · exact h
    · rw [hv2] at hv; cases hv
  have hss2 : stageScript sp2 m2
      { dm with
        requirements := (dm.requirements ++ m1.dependencies)
        module_map := (dm.module_map
          ++ [(pathStem sp1, stagedPath dm.scripts_dir (pathStem sp1))]) }
      { w with
        stagedFiles := (w.stagedFiles
          ++ [stagedPath dm.scripts_dir (pathStem sp1)]) }
      = .fatal
        { dm with
          requirements := ((dm.requirements ++ m1.dependencies)
            ++ m2.dependencies)
          module_map := (dm.module_map
            ++ [(pathStem sp1, stagedPath dm.scripts_dir (pathStem sp1))]) }
        (.depError (collisionMsg (pathStem sp2) sp2
          (stagedPath dm.scripts_dir (pathStem sp1)))) := by
    simp only [stageScript, hmap, hstem]
    simp [List.find?]
  have hps : processScripts env [sp1, sp2] dm w
      = ({ dm with
            requirements := ((dm.requirements ++ m1.dependencies)
              ++ m2.dependencies)
            module_map := (dm.module_map
              ++ [(pathStem sp1, stagedPath dm.scripts_dir (pathStem sp1))]) },
          { w with
            stagedFiles := (w.stagedFiles
              ++ [stagedPath dm.scripts_dir (pathStem sp1)]) },
          some (.depError (collisionMsg (pathStem sp2) sp2
            (stagedPath dm.scripts_dir (pathStem sp1))))) := by
    simp only [processScripts, hso1, hss1, hso2, hss2]
  refine ⟨?_, ?_, ?_⟩
  · have hb : (setupBody env dm w).1 = .error (.depError
        (collisionMsg (pathStem sp2) sp2
          (stagedPath dm.scripts_dir (pathStem sp1)))) := by
      unfold setupBody setupScriptModules
      rw [hscripts, hps]
    rw [DependencyManager.setup]
    cases hbody : setupBody env dm w with
    | mk r w0 =>
      rw [hbody] at hb
      simp only at hb
      subst hb
      rfl
  · rw [collisionMsg]
    rw [strAppend_assoc ((((("Duplicate module name " ++ squote)
      ++ pathStem sp2) ++ squote) ++ " from ") ++ sp2) ". Already used by "
      (stagedPath dm.scripts_dir (pathStem sp1))]
    exact containsStr_append _ sp2 _
  · rw [collisionMsg]
    exact containsStr_append2 _ _

/-- Witness for C3 (amended): the concrete collision scenario. -/
theorem staging_collision_aborts_setup_witness :
    (dmColl.scripts = ["a/tool.py", "b/tool.py"]) ∧
    (dmColl.module_map = []) ∧
    (pathStem "b/tool.py" = pathStem "a/tool.py") ∧
    ((DependencyManager.setup envColl dmColl worldInit).1 = .error (.depError
      (collisionMsg (pathStem "b/tool.py") "b/tool.py"
        (stagedPath dmColl.scripts_dir (pathStem "a/tool.py")))) ∧
    containsStr (collisionMsg (pathStem "b/tool.py") "b/tool.py"
      (stagedPath dmColl.scripts_dir (pathStem "a/tool.py"))) "b/tool.py"
      = true ∧
    containsStr (collisionMsg (pathStem "b/tool.py") "b/tool.py"
      (stagedPath dmColl.scripts_dir (pathStem "a/tool.py")))
      (stagedPath dmColl.scripts_dir (pathStem "a/tool.py")) = true) :=
  ⟨rfl, rfl, rfl,
    staging_collision_aborts_setup envColl dmColl worldInit "a/tool.py"
      "b/tool.py" "x = 1" "x = 1" ⟨[], none⟩ ⟨[], none⟩ rfl rfl rfl rfl rfl
      rfl rfl rfl rfl rfl rfl⟩

theorem processOne_staged_world (env : Env) (sp : String)
    (dm : DependencyManager) (w : World) (dm1 : DependencyManager) (w1 : World)
    (h : processOne env sp dm w = .staged dm1 w1) :
    w1.stagingExists = w.stagingExists ∧ w1.sysPath = w.sysPath ∧
    w1.installCalls = w.installCalls := by
  unfold processOne at h
  split at h
  · cases h
  · cases h
  · split at h
    · cases h
    · split at h
      · cases h
      · split at h
        · split at h
          · cases h
          · rcases stageScript_staged_spec _ _ _ _ _ _ h with ⟨_, _, _, _, hw⟩
            rw [hw]
            exact ⟨rfl, rfl, rfl⟩
        · rcases stageScript_staged_spec _ _ _ _ _ _ h with ⟨_, _, _, _, hw⟩
          rw [hw]
          exact ⟨rfl, rfl, rfl⟩

theorem processScripts_world (env : Env) : ∀ (ss : List String)
    (dm : DependencyManager) (w : World),
    ((processScripts env ss dm w).2.1.stagingExists = w.stagingExists) ∧
    ((processScripts env ss dm w).2.1.sysPath = w.sysPath) ∧
    ((processScripts env ss dm w).2.1.installCalls = w.installCalls) := by
  intro ss
  induction ss with
  | nil => intro dm w; exact ⟨rfl, rfl, rfl⟩
  | cons sp rest ih =>
    intro dm w
    rw [processScripts]
    cases hpo : processOne env sp dm w with
    | skipped => exact ih dm w
    | fatal dm1 e => exact ⟨rfl, rfl, rfl⟩
    | staged dm1 w1 =>
      have hw := processOne_staged_world env sp dm w dm1 w1 hpo
      have h := ih dm1 w1
      exact ⟨h.1.trans hw.1, h.2.1.trans hw.2.1, h.2.2.trans hw.2.2⟩

theorem finishPaths_world (env : Env) (dm : DependencyManager) (w : World) :
    ((finishPaths env dm w).2.stagingExists = w.stagingExists) ∧
    ((finishPaths env dm w).2.stagedFiles = w.stagedFiles) ∧
    ((finishPaths env dm w).2.installCalls = w.installCalls) := by
  unfold finishPaths
  split
  · exact ⟨rfl, rfl, rfl⟩
  · split
    · exact ⟨rfl, rfl, rfl⟩
    · exact ⟨rfl, rfl, rfl⟩

theorem setupAfterStaging_world (env : Env) (dm1 : DependencyManager)
    (w1 : World) :
    ((setupAfterStaging env dm1 w1).2.stagingExists = w1.stagingExists) ∧
    ((setupAfterStaging env dm1 w1).2.stagedFiles = w1.stagedFiles) := by
  unfold setupAfterStaging
  cases hd : dirDeps env dm1.extra_paths with
  | error m => exact ⟨rfl, rfl⟩
  | ok ds =>
    by_cases hmiss : (check_requirements env.lookup
        (sortedSet (dm1.requirements ++ ds))).isEmpty
    · simp only [hmiss, if_true]
      exact ⟨(finishPaths_world env _ w1).1, (finishPaths_world env _ w1).2.1⟩
    · simp only [hmiss, if_false]
      cases hi : install_requirements env.runner
          (check_requirements env.lookup (sortedSet (dm1.requirements ++ ds)))
          (some (get_pip_command env.whichUv env.pyExe dm1.prefer_uv
            dm1.is_uv)) dm1.pip_index_url with
      | mk r calls =>
        cases r with
        | error e => exact ⟨rfl, rfl⟩
        | ok a =>
          refine ⟨?_, ?_⟩
          · exact (finishPaths_world env _ _).1
          · exact (finishPaths_world env _ _).2.1

theorem setupBody_stagingExists (env : Env) (dm : DependencyManager)
    (w : World) :
    (setupBody env dm w).2.stagingExists = w.stagingExists := by
  unfold setupBody setupScriptModules
  cases hps : processScripts env dm.scripts dm w with
  | mk dm1 p =>
    obtain ⟨w1, err⟩ := p
    have hw1 : w1.stagingExists = w.stagingExists := by
      have h := (processScripts_world env dm.scripts dm w).1
      rw [hps] at h
      exact h
    cases err with
    | some e => exact hw1
    | none =>
      by_cases hm : dm1.module_map.isEmpty
      · simp only [hm, if_true]
        exact ((setupAfterStaging_world env dm1 w1).1).trans hw1
      · simp only [hm, if_false]
        exact ((setupAfterStaging_world env dm1 _).1).trans hw1

/-- C2: whenever `setup()` raises, the raised error is classified as a
`DependencyError` and the staging directory has already been removed
(recursively, together with its staged files) before the error reaches the
caller; a `DependencyError` from the body is re-raised unchanged while any
other exception is re-wrapped as `DependencyError`. -/
theorem setup_failure_cleans_up_and_wraps (env : Env)
    (dm : DependencyManager) (w : World) (e : PyErr) (w' : World)
    (hw : w.stagingExists = true)
    (h : DependencyManager.setup env dm w = (.error e, w')) :
    e.isDependencyError = true ∧ w'.stagingExists = false ∧
    w'.stagedFiles = [] ∧
    (∀ (e0 : PyErr) (w0 : World), setupBody env dm w = (.error e0, w0) →
      (e0.isDependencyError = true → e = e0) ∧
      (e0.isDependencyError = false →
        e = .depError ("Dependency setup failed: " ++ e0.msg))) := by
  rw [DependencyManager.setup] at h
  cases hb : setupBody env dm w with
  | mk r w0 =>
    rw [hb] at h
    have hw0 : w0.stagingExists = true := by
      have hx := setupBody_stagingExists env dm w
      rw [hb] at hx
      exact hx.trans hw
    cases r with
    | ok d => cases h
    | error e0 =>
      have hclean : DependencyManager.cleanup w0
          = { w0 with stagingExists := false, stagedFiles := [] } := by
        rw [DependencyManager.cleanup, if_pos hw0]
      have h' : (if e0.isDependencyError = true
          then ((Except.error e0 : Except PyErr DependencyManager),
            DependencyManager.cleanup w0)
          else (Except.error (PyErr.depError ("Dependency setup failed: "
            ++ e0.msg)), DependencyManager.cleanup w0)) = (.error e, w') := h
      by_cases hdep : e0.isDependencyError = true
      · rw [if_pos hdep] at h'
        injection h' with h1 h2
        injection h1 with h1
        subst h1
        subst h2
        refine ⟨hdep, ?_, ?_, ?_⟩
        · rw [hclean]
        · rw [hclean]
        · intro e1 w1 h1
          injection h1 with h1a h1b
          injection h1a with h1a
          subst h1a
          exact ⟨fun _ => rfl, fun hf => absurd hdep (by rw [hf]; decide)⟩
      · rw [if_neg hdep] at h'
        injection h' with h1 h2
        injection h1 with h1
        subst h1
        subst h2
        refine ⟨rfl, ?_, ?_, ?_⟩
        · rw [hclean]
        · rw [hclean]
        · intro e1 w1 h1
          injection h1 with h1a h1b
          injection h1a with h1a
          subst h1a
          exact ⟨fun ht => absurd ht hdep, fun _ => rfl⟩

/-- Witness for C2: a concrete failing setup (the defensive path re-check
fails), which ends with the staging directory removed and a
`DependencyError`. -/
theorem setup_failure_cleans_up_and_wraps_witness :
    (worldInit.stagingExists = true) ∧
    ((PyErr.depError "Path does not exist: missing").isDependencyError = true ∧
    ({ sysPath := ["missing"], stagingExists := false, stagedFiles := [],
       installCalls := [] } : World).stagingExists = false ∧
    ({ sysPath := ["missing"], stagingExists := false, stagedFiles := [],
       installCalls := [] } : World).stagedFiles = [] ∧
    (∀ (e0 : PyErr) (w0 : World),
      setupBody envNoPath dmExtra worldInit = (.error e0, w0) →
      (e0.isDependencyError = true →
        PyErr.depError "Path does not exist: missing" = e0) ∧
      (e0.isDependencyError = false →
        PyErr.depError "Path does not exist: missing"
          = .depError ("Dependency setup failed: " ++ e0.msg)))) :=
  ⟨rfl, setup_failure_cleans_up_and_wraps envNoPath dmExtra worldInit
    (.depError "Path does not exist: missing")
    { sysPath := ["missing"], stagingExists := false, stagedFiles := [],
      installCalls := [] } rfl rfl⟩

theorem charListLeB_total : ∀ (x y : List Char),
    charListLeB x y = true ∨ charListLeB y x = true := by
  intro x
  induction x with
  | nil => intro y; exact Or.inl rfl
  | cons a as ih =>
    intro y
    cases y with
    | nil => exact Or.inr rfl
    | cons b bs =>
      rw [charListLeB, charListLeB]
      rcases Nat.lt_trichotomy a.toNat b.toNat with hab | hab | hab
      · left
        rw [if_pos hab]
      · rw [if_neg (by omega), if_neg (by omega), if_neg (by omega),
          if_neg (by omega)]
        exact ih bs
      · right
        rw [if_pos hab]

theorem charListLeB_trans : ∀ (x y z : List Char),
    charListLeB x y = true → charListLeB y z = true →
    charListLeB x z = true := by
  intro x
  induction x with
  | nil => intro y z _ _; rfl
  | cons a as ih =>
    intro y z hxy hyz
    cases y with
    | nil => rw [charListLeB] at hxy; cases hxy
    | cons b bs =>
      cases z with
      | nil => rw [charListLeB] at hyz; cases hyz
      | cons c cs =>
        rw [charListLeB] at hxy hyz ⊢
        by_cases h1 : a.toNat < b.toNat
        · by_cases h2 : b.toNat < c.toNat
          · rw [if_pos (by omega)]
          · by_cases h3 : c.toNat < b.toNat
            · rw [if_neg h2, if_pos h3] at hyz
              cases hyz
            · rw [if_pos (by omega)]
        · by_cases h4 : b.toNat < a.toNat
          · rw [if_neg h1, if_pos h4] at hxy
            cases hxy
          · by_cases h2 : b.toNat < c.toNat
            · rw [if_pos (by omega)]
            · by_cases h3 : c.toNat < b.toNat
              · rw [if_neg h2, if_pos h3] at hyz
                cases hyz
              · rw [if_neg h1, if_neg h4] at hxy
                rw [if_neg h2, if_neg h3] at hyz
                rw [if_neg (by omega), if_neg (by omega)]
                exact ih bs cs hxy hyz

theorem strLeB_total (a b : String) : strLeB a b = true ∨ strLeB b a = true :=
  charListLeB_total a.data b.data

theorem strLeB_trans (a b c : String) (h1 : strLeB a b = true)
    (h2 : strLeB b c = true) : strLeB a c = true :=
  charListLeB_trans a.data b.data c.data h1 h2

theorem sortedSet_spec (l : List String) :
    List.Pairwise (fun a b => strLeB a b = true) (sortedSet l) ∧
    (sortedSet l).Nodup ∧
    (∀ r, r ∈ sortedSet l ↔ r ∈ l) := by
  haveI ht : IsTotal String (fun a b => strLeB a b = true) := ⟨strLeB_total⟩
  haveI htr : IsTrans String (fun a b => strLeB a b = true) :=
    ⟨fun a b c => strLeB_trans a b c⟩
  refine ⟨?_, ?_, ?_⟩
  · exact List.sorted_insertionSort _ _
  · exact ((List.perm_insertionSort _ _).nodup_iff).mpr (List.nodup_dedup l)
  · intro r
    exact ((List.perm_insertionSort _ _).mem_iff).trans (List.mem_dedup)

theorem processOne_fatal_req (env : Env) (sp : String)
    (dm : DependencyManager) (w : World) (dm1 : DependencyManager) (e : PyErr)
    (h : processOne env sp dm w = .fatal dm1 e) :
    ∃ t, dm1.requirements = dm.requirements ++ t := by
  unfold processOne at h
  split at h
  · cases h
  · cases h
  · split at h
    · cases h
    · split at h
      · cases h
        exact ⟨[], (List.append_nil _).symm⟩
      · split at h
        · split at h
          · cases h
            exact ⟨[], (List.append_nil _).symm⟩
          · exact ⟨_, (stageScript_fatal_spec _ _ _ _ _ _ h).1⟩
        · exact ⟨_, (stageScript_fatal_spec _ _ _ _ _ _ h).1⟩

theorem processOne_staged_req (env : Env) (sp : String)
    (dm : DependencyManager) (w : World) (dm1 : DependencyManager) (w1 : World)
    (h : processOne env sp dm w = .staged dm1 w1) :
    ∃ t, dm1.requirements = dm.requirements ++ t := by
  unfold processOne at h
  split at h
  · cases h
  · cases h
  · split at h
    · cases h
    · split at h
      · cases h
      · split at h
        · split at h
          · cases h
          · exact ⟨_, (stageScript_staged_spec _ _ _ _ _ _ h).1⟩
        · exact ⟨_, (stageScript_staged_spec _ _ _ _ _ _ h).1⟩

theorem processScripts_req (env : Env) : ∀ (ss : List String)
    (dm : DependencyManager) (w : World),
    ∃ t, (processScripts env ss dm w).1.requirements
      = dm.requirements ++ t := by
  intro ss
  induction ss with
  | nil => intro dm w; exact ⟨[], (List.append_nil _).symm⟩
  | cons sp rest ih =>
    intro dm w
    rw [processScripts]
    cases hpo : processOne env sp dm w with
    | skipped => exact ih dm w
    | fatal dm1 e => exact processOne_fatal_req env sp dm w dm1 e hpo
    | staged dm1 w1 =>
      obtain ⟨t1, ht1⟩ := processOne_staged_req env sp dm w dm1 w1 hpo
      obtain ⟨t2, ht2⟩ := ih dm1 w1
      exact ⟨t1 ++ t2, by rw [ht2, ht1, List.append_assoc]⟩

theorem processScripts_deps (env : Env) : ∀ (ss : List String)
    (dm : DependencyManager) (w : World) (dm1 : DependencyManager)
    (w1 : World), processScripts env ss dm w = (dm1, w1, none) →
    ∀ sp, sp ∈ ss → ∀ (c : String) (meta : ScriptMeta),
      env.readScript sp = .content c → env.parseMeta c = .ok meta →
      env.syntaxOk c = true →
      ∀ d, d ∈ meta.dependencies → d ∈ dm1.requirements := by
  intro ss
  induction ss with
  | nil =>
    intro dm w dm1 w1 _ sp hsp
    cases hsp
  | cons s rest ih =>
    intro dm w dm1 w1 hps sp hsp c meta hr hp hs d hd
    rw [processScripts] at hps
    cases hpo : processOne env s dm w with
    | skipped =>
      rw [hpo] at hps
      have hps' : processScripts env rest dm w = (dm1, w1, none) := hps
      rcases List.mem_cons.mp hsp with rfl | hsp
      · rcases processOne_ok_cases env sp dm w c meta hr hp hs with hx | ⟨v, _, _, hx⟩
        · exact absurd (hpo.symm.trans hx) (stageScript_ne_skipped _ _ _ _).symm
        · rw [hpo] at hx; cases hx
      · exact ih dm w dm1 w1 hps' sp hsp c meta hr hp hs d hd
    | fatal dmF e =>
      rw [hpo] at hps
      have hps' : ((dmF, w, some e) : DependencyManager × World × Option PyErr)
          = (dm1, w1, none) := hps
      injection hps' with h1 h2
      injection h2 with h2a h2b
      cases h2b
    | staged dmS wS =>
      rw [hpo] at hps
      have hps' : processScripts env rest dmS wS = (dm1, w1, none) := hps
      rcases List.mem_cons.mp hsp with rfl | hsp
      · rcases processOne_ok_cases env sp dm w c meta hr hp hs with hx | ⟨v, _, _, hx⟩
        · have hst : stageScript sp meta dm w = .staged dmS wS :=
            hx.symm.trans hpo
          have hreq := (stageScript_staged_spec _ _ _ _ _ _ hst).1
          obtain ⟨t, ht⟩ := processScripts_req env rest dmS wS
          rw [hps'] at ht
          rw [ht, hreq]
          rw [List.append_assoc]
          exact List.mem_append.mpr (Or.inr (List.mem_append.mpr
            (Or.inl hd)))
        · rw [hpo] at hx; cases hx
      · exact ih dmS wS dm1 w1 hps' sp hsp c meta hr hp hs d hd

theorem finishPaths_ok (env : Env) (dm : DependencyManager) (w : World)
    (dm' : DependencyManager) (w' : World)
    (h : finishPaths env dm w = (.ok dm', w')) :
    dm' = dm ∧ w'.installCalls = w.installCalls := by
  unfold finishPaths at h
  split at h
  · injection h with ha hb
    injection ha with ha
    subst ha
    subst hb
    exact ⟨rfl, rfl⟩
  · split at h
    · injection h with ha hb
      cases ha
    · injection h with ha hb
      injection ha with ha
      subst ha
      subst hb
      exact ⟨rfl, rfl⟩

theorem setupAfterStaging_ok (env : Env) (dm1 : DependencyManager) (W : World)
    (ds : List String) (dm' : DependencyManager) (w' : World)
    (h2 : dirDeps env dm1.extra_paths = .ok ds)
    (h : setupAfterStaging env dm1 W = (.ok dm', w')) :
    dm'.requirements = sortedSet (dm1.requirements ++ ds) ∧
    dm'.prefer_uv = dm1.prefer_uv ∧ dm'.is_uv = dm1.is_uv ∧
    dm'.pip_index_url = dm1.pip_index_url ∧
    w'.installCalls = W.installCalls ++
      (if (check_requirements env.lookup
          (sortedSet (dm1.requirements ++ ds))).isEmpty then []
       else [buildInstallCmd
         (get_pip_command env.whichUv env.pyExe dm1.prefer_uv dm1.is_uv)
         dm1.pip_index_url
         (check_requirements env.lookup
           (sortedSet (dm1.requirements ++ ds)))]) := by
  unfold setupAfterStaging at h
  rw [h2] at h
  replace h : (if (check_requirements env.lookup
        (sortedSet (dm1.requirements ++ ds))).isEmpty = true
      then finishPaths env
        { dm1 with
          requirements := (sortedSet (dm1.requirements ++ ds))
          installed := ((dm1.installed
            ++ sortedSet (dm1.requirements ++ ds)).dedup) } W
      else
        match install_requirements env.runner
            (check_requirements env.lookup
              (sortedSet (dm1.requirements ++ ds)))
            (some (get_pip_command env.whichUv env.pyExe dm1.prefer_uv
              dm1.is_uv)) dm1.pip_index_url with
        | (.error e, calls) =>
          ((Except.error e : Except PyErr DependencyManager),
            { W with installCalls := (W.installCalls ++ calls) })
        | (.ok _, calls) =>
          finishPaths env
            { dm1 with
              requirements := (sortedSet (dm1.requirements ++ ds))
              installed := ((dm1.installed
                ++ sortedSet (dm1.requirements ++ ds)).dedup) }
            { W with installCalls := (W.installCalls ++ calls) })
      = (.ok dm', w') := h
  by_cases hmiss : (check_requirements env.lookup
      (sortedSet (dm1.requirements ++ ds))).isEmpty
  · rw [if_pos hmiss] at h
    obtain ⟨hdm, hcalls⟩ := finishPaths_ok env _ W dm' w' h
    subst hdm
    rw [if_pos hmiss]
    exact ⟨rfl, rfl, rfl, rfl, by rw [hcalls, List.append_nil]⟩
  · rw [if_neg hmiss] at h
    have hmf : (check_requirements env.lookup
        (sortedSet (dm1.requirements ++ ds))).isEmpty = false := by
      cases hv : (check_requirements env.lookup
          (sortedSet (dm1.requirements ++ ds))).isEmpty
      · rfl
      · exact absurd hv hmiss
    cases hrun : env.runner (buildInstallCmd
        (get_pip_command env.whichUv env.pyExe dm1.prefer_uv dm1.is_uv)
        dm1.pip_index_url
        (check_requirements env.lookup
          (sortedSet (dm1.requirements ++ ds)))) with
    | ok out =>
      have hIR : install_requirements env.runner
          (check_requirements env.lookup (sortedSet (dm1.requirements ++ ds)))
          (some (get_pip_command env.whichUv env.pyExe dm1.prefer_uv
            dm1.is_uv)) dm1.pip_index_url
          = (.ok (check_requirements env.lookup
              (sortedSet (dm1.requirements ++ ds))),
             [buildInstallCmd
               (get_pip_command env.whichUv env.pyExe dm1.prefer_uv dm1.is_uv)
               dm1.pip_index_url
               (check_requirements env.lookup
                 (sortedSet (dm1.requirements ++ ds)))]) := by
        unfold install_requirements
        rw [hmf]
        simp only [Bool.false_eq_true, if_false, Option.getD_some]
        rw [hrun]
      rw [hIR] at h
      have h' : finishPaths env
          { dm1 with
            requirements := (sortedSet (dm1.requirements ++ ds))
            installed := ((dm1.installed
              ++ sortedSet (dm1.requirements ++ ds)).dedup) }
          { W with
            installCalls := (W.installCalls ++ [buildInstallCmd
              (get_pip_command env.whichUv env.pyExe dm1.prefer_uv dm1.is_uv)
              dm1.pip_index_url
              (check_requirements env.lookup
                (sortedSet (dm1.requirements ++ ds)))]) }
          = (.ok dm', w') := h
      obtain ⟨hdm, hcalls⟩ := finishPaths_ok env _ _ dm' w' h'
      subst hdm
      rw [if_neg hmiss]
      exact ⟨rfl, rfl, rfl, rfl, hcalls⟩
    | nonzero stderr =>
      exfalso
      have hIR : install_requirements env.runner
          (check_requirements env.lookup (sortedSet (dm1.requirements ++ ds)))
          (some (get_pip_command env.whichUv env.pyExe dm1.prefer_uv
            dm1.is_uv)) dm1.pip_index_url
          = (.error (.depError
              (("Failed to install requirements: command returned non-zero exit status"
                ++ "\nOutput: ") ++ stderr)),
             [buildInstallCmd
               (get_pip_command env.whichUv env.pyExe dm1.prefer_uv dm1.is_uv)
               dm1.pip_index_url
               (check_requirements env.lookup
                 (sortedSet (dm1.requirements ++ ds)))]) := by
        unfold install_requirements
        rw [hmf]
        simp only [Bool.false_eq_true, if_false, Option.getD_some]
        rw [hrun]
      rw [hIR] at h
      have h' : ((Except.error (PyErr.depError
          (("Failed to install requirements: command returned non-zero exit status"
            ++ "\nOutput: ") ++ stderr)) : Except PyErr DependencyManager),
          { W with
            installCalls := (W.installCalls ++ [buildInstallCmd
              (get_pip_command env.whichUv env.pyExe dm1.prefer_uv dm1.is_uv)
              dm1.pip_index_url
              (check_requirements env.lookup
                (sortedSet (dm1.requirements ++ ds)))]) })
          = (.ok dm', w') := h
      injection h' with ha hb
      cases ha
    | invokeError m =>
      exfalso
      have hIR : install_requirements env.runner
          (check_requirements env.lookup (sortedSet (dm1.requirements ++ ds)))
          (some (get_pip_command env.whichUv env.pyExe dm1.prefer_uv
            dm1.is_uv)) dm1.pip_index_url
          = (.error (.depError
              ("Unexpected error installing requirements: " ++ m)),
             [buildInstallCmd
               (get_pip_command env.whichUv env.pyExe dm1.prefer_uv dm1.is_uv)
               dm1.pip_index_url
               (check_requirements env.lookup
                 (sortedSet (dm1.requirements ++ ds)))]) := by
        unfold install_requirements
        rw [hmf]
        simp only [Bool.false_eq_true, if_false, Option.getD_some]
        rw [hrun]
      rw [hIR] at h
      have h' : ((Except.error (PyErr.depError
          ("Unexpected error installing requirements: " ++ m))
            : Except PyErr DependencyManager),
          { W with
            installCalls := (W.installCalls ++ [buildInstallCmd
              (get_pip_command env.whichUv env.pyExe dm1.prefer_uv dm1.is_uv)
              dm1.pip_index_url
              (check_requirements env.lookup
                (sortedSet (dm1.requirements ++ ds)))]) })
          = (.ok dm', w') := h
      injection h' with ha hb
      cases ha

/-- C9: on every successful setup, the tracked requirement set handed to
the install decision is the deduplicated union — sorted in code-point
lexicographic order — of the post-staging requirements (the explicit
requirements extended by each staged script's metadata dependencies) and
the requirements discovered by scanning the extra directories; and the
installer is invoked exactly on the missing subset of that sorted set (not
at all when nothing is missing). -/
theorem setup_aggregates_sorted_requirements
    (env : Env) (dm : DependencyManager) (w : World)
    (dm1 : DependencyManager) (w1 : World) (ds : List String)
    (dm' : DependencyManager) (w' : World)
    (h1 : processScripts env dm.scripts dm w = (dm1, w1, none))
    (h2 : dirDeps env dm1.extra_paths = .ok ds)
    (hs : DependencyManager.setup env dm w = (.ok dm', w')) :
    dm'.requirements = sortedSet (dm1.requirements ++ ds) ∧
    List.Pairwise (fun a b => strLeB a b = true) dm'.requirements ∧
    dm'.requirements.Nodup ∧
    (∀ r, r ∈ dm'.requirements ↔ (r ∈ dm1.requirements ∨ r ∈ ds)) ∧
    (∃ t, dm1.requirements = dm.requirements ++ t) ∧
    (∀ sp, sp ∈ dm.scripts → ∀ (c : String) (meta : ScriptMeta),
      env.readScript sp = .content c → env.parseMeta c = .ok meta →
      env.syntaxOk c = true → ∀ d, d ∈ meta.dependencies →
      d ∈ dm1.requirements) ∧
    w'.installCalls = w.installCalls ++
      (if (check_requirements env.lookup dm'.requirements).isEmpty then []
       else [buildInstallCmd
         (get_pip_command env.whichUv env.pyExe dm'.prefer_uv dm'.is_uv)
         dm'.pip_index_url
         (check_requirements env.lookup dm'.requirements)]) := by
  rw [DependencyManager.setup] at hs
  cases hb : setupBody env dm w with
  | mk r w0 =>
    rw [hb] at hs
    cases r with
    | error e0 =>
      exfalso
      have hs' : (if e0.isDependencyError = true
          then ((Except.error e0 : Except PyErr DependencyManager),
            DependencyManager.cleanup w0)
          else (.error (.depError ("Dependency setup failed: " ++ e0.msg)),
            DependencyManager.cleanup w0)) = (.ok dm', w') := hs
      by_cases hdep : e0.isDependencyError = true
      · rw [if_pos hdep] at hs'
        injection hs' with ha _
        cases ha
      · rw [if_neg hdep] at hs'
        injection hs' with ha _
        cases ha
    | ok d =>
      have hs' : ((Except.ok d : Except PyErr DependencyManager), w0)
          = (.ok dm', w') := hs
      injection hs' with ha hbw
      injection ha with ha
      subst ha
      subst hbw
      have hb' : (match (if dm1.module_map.isEmpty = true
            then ((dm1, w1, (none : Option PyErr)))
            else ((dm1, { w1 with sysPath := (dm1.scripts_dir :: w1.sysPath) },
              (none : Option PyErr)))) with
          | (_, wx, some e) =>
            ((Except.error e : Except PyErr DependencyManager), wx)
          | (dmx, wx, none) => setupAfterStaging env dmx wx)
          = (.ok d, w0) := by
        rw [← hb]
        unfold setupBody setupScriptModules
        rw [h1]
      have hw1 := processScripts_world env dm.scripts dm w
      rw [h1] at hw1
      have hEx : ∃ W, setupAfterStaging env dm1 W = (.ok d, w0) ∧
          W.installCalls = w.installCalls := by
        by_cases hm : dm1.module_map.isEmpty
        · rw [if_pos hm] at hb'
          exact ⟨w1, hb', hw1.2.2⟩
        · rw [if_neg hm] at hb'
          exact ⟨{ w1 with sysPath := (dm1.scripts_dir :: w1.sysPath) },
            hb', hw1.2.2⟩
      obtain ⟨W, hAS, hWcalls⟩ := hEx
      obtain ⟨hreq, hpu, hiu, hidx, hcalls⟩ :=
        setupAfterStaging_ok env dm1 W ds d w0 h2 hAS
      refine ⟨hreq, ?_, ?_, ?_, ?_, ?_, ?_⟩
      · rw [hreq]
        exact (sortedSet_spec _).1
      · rw [hreq]
        exact (sortedSet_spec _).2.1
      · intro r
        rw [hreq, (sortedSet_spec _).2.2 r]
        exact List.mem_append
      · obtain ⟨t, ht⟩ := processScripts_req env dm.scripts dm w
        rw [h1] at ht
        exact ⟨t, ht⟩
      · exact fun sp hsp c meta hr hp hsx dep hd =>
          processScripts_deps env dm.scripts dm w dm1 w1 h1 sp hsp c meta
            hr hp hsx dep hd
      · rw [hreq, hpu, hiu, hidx, hcalls, hWcalls]

/-- Witness for C9: the end-to-end example — explicit `["requests"]` plus
one script declaring `rich`, nothing importable — passes
`["requests", "rich"]` to the installer in sorted order. -/
theorem setup_aggregates_sorted_requirements_witness :
    (processScripts envRich dmRich.scripts dmRich worldInit
      = (dmRichStaged, wRichStaged, none)) ∧
    (dirDeps envRich dmRichStaged.extra_paths = .ok []) ∧
    (DependencyManager.setup envRich dmRich worldInit
      = (.ok dmRichFinal, wRichFinal)) ∧
    (dmRichFinal.requirements
      = sortedSet (dmRichStaged.requirements ++ []) ∧
    List.Pairwise (fun a b => strLeB a b = true) dmRichFinal.requirements ∧
    dmRichFinal.requirements.Nodup ∧
    (∀ r, r ∈ dmRichFinal.requirements ↔
      (r ∈ dmRichStaged.requirements ∨ r ∈ ([] : List String))) ∧
    (∃ t, dmRichStaged.requirements = dmRich.requirements ++ t) ∧
    (∀ sp, sp ∈ dmRich.scripts → ∀ (c : String) (meta : ScriptMeta),
      envRich.readScript sp = .content c → envRich.parseMeta c = .ok meta →
      envRich.syntaxOk c = true → ∀ d, d ∈ meta.dependencies →
      d ∈ dmRichStaged.requirements) ∧
    wRichFinal.installCalls = worldInit.installCalls ++
      (if (check_requirements envRich.lookup
          dmRichFinal.requirements).isEmpty then []
       else [buildInstallCmd
         (get_pip_command envRich.whichUv envRich.pyExe dmRichFinal.prefer_uv
           dmRichFinal.is_uv)
         dmRichFinal.pip_index_url
         (check_requirements envRich.lookup dmRichFinal.requirements)])) :=
  ⟨rfl, rfl, rfl,
    setup_aggregates_sorted_requirements envRich dmRich worldInit
      dmRichStaged wRichStaged [] dmRichFinal wRichFinal rfl rfl rfl⟩
